import Mathlib

/-!
# tg-bot-profile: a verification development

A shallow embedding of the Go sources of the Telegram profile bot
(`handler/handler.go`, `state/state.go`, `database/database.go`,
`models/user.go`) together with the two entry points of Go's `time.Parse`
that the handler relies on.

Conventions.

* Go strings are byte strings.  They are embedded as Lean strings and the
  parsers walk their characters.  Every byte the two layouts compare against
  (`0`-`9`, `/`, `:`) is ASCII, and no byte of a multi-byte UTF-8 sequence is
  ASCII, so a value is accepted byte-wise exactly when it is accepted
  character-wise.
* Go's `int`, `int64` are embedded as `Int`; no arithmetic in the handlers can
  overflow except `Time.Sub`, whose saturation is modelled explicitly.
* A handler is a function from the state it starts in to the state it leaves.
  What the storage engine, the transport and the clock answer is read from an
  environment, so that every outcome of every call is covered.  Handlers are
  run one at a time; the goroutine per update of `bot.go` is not modelled.
* `float64` results are exact results passed through a rounding function of
  the environment.
-/

namespace GoTime

/-! ## Go `time.Parse`, for the layouts `"02/01/2006"` and `"15:04"` -/

/-- Go `isDigit(s, i)`: the index is in range and the character is a decimal digit. -/
def isDigit (s : List Char) (i : Nat) : Bool :=
  match s.get? i with
  | none => false
  | some c => decide (48 ≤ c.toNat) && decide (c.toNat ≤ 57)

/-- The value `int(s[i] - '0')` of the character at index `i`. -/
def digitAt (s : List Char) (i : Nat) : Int :=
  (((s.getD i '0').toNat - 48 : Nat) : Int)

/-- Go `getnum(s, fixed)`: parses `s[0:1]` or `s[0:2]` (`fixed` forces `s[0:2]`)
as a decimal integer and returns it with the remainder of the string;
`none` stands for `errBad`. -/
def getnum (s : List Char) (fixed : Bool) : Option (Int × List Char) :=
  if !isDigit s 0 then none
  else if !isDigit s 1 then
    if fixed then none else some (digitAt s 0, s.drop 1)
  else some (digitAt s 0 * 10 + digitAt s 1, s.drop 2)

/-- Go `skip(value, pre)` for a literal without spaces: removes the literal
from the front of the value, `none` (`errBad`) when the value does not start with it. -/
def skip : List Char → List Char → Option (List Char)
  | value, [] => some value
  | [], _ :: _ => none
  | v :: value, p :: pre => if v ≠ p then none else skip value pre

/-- Go `atoi(p)` on the four characters of a long year.  The caller has checked
that the first one is a digit, so no sign is read; `leadingInt` must consume
all four characters. -/
def atoi4 (p : List Char) : Option Int :=
  if isDigit p 0 && isDigit p 1 && isDigit p 2 && isDigit p 3 then
    some (digitAt p 0 * 1000 + digitAt p 1 * 100 + digitAt p 2 * 10 + digitAt p 3)
  else none

/-- The layout elements (`std` chunk codes) that occur in the two layouts. -/
inductive Std where
  | stdZeroDay
  | stdZeroMonth
  | stdLongYear
  | stdHour
  | stdZeroMinute
deriving DecidableEq, Repr

/-- The local variables of Go `parse` that the two layouts assign, with the
initial values `parse` gives them. -/
structure Fields where
  year : Int := 0
  month : Int := -1
  day : Int := -1
  hour : Int := 0
  min : Int := 0
deriving DecidableEq, Repr

/-- One arm of the `switch std & stdMask` of Go `parse`.  `none` stands for
both ways the arm can fail: `err != nil` and a non-empty `rangeErrString`. -/
def parseStd (std : Std) (value : List Char) (f : Fields) : Option (Fields × List Char) :=
  match std with
  | .stdLongYear =>
      if value.length < 4 || !isDigit value 0 then none
      else
        match atoi4 (value.take 4) with
        | none => none
        | some year => some ({ f with year := year }, value.drop 4)
  | .stdZeroMonth =>
      match getnum value true with
      | none => none
      | some (month, value) =>
          if month ≤ 0 || 12 < month then none else some ({ f with month := month }, value)
  | .stdZeroDay =>
      match getnum value true with
      | none => none
      | some (day, value) => some ({ f with day := day }, value)
  | .stdHour =>
      match getnum value false with
      | none => none
      | some (hour, value) =>
          if hour < 0 || 24 ≤ hour then none else some ({ f with hour := hour }, value)
  | .stdZeroMinute =>
      match getnum value true with
      | none => none
      | some (min, value) =>
          if min < 0 || 60 ≤ min then none else some ({ f with min := min }, value)

/-- The loop of Go `parse` over the chunks `nextStdChunk` cuts the layout into:
each chunk is the literal text before a layout element, and the element. -/
def parseChunks : List (List Char × Std) → List Char → Fields → Option (Fields × List Char)
  | [], value, f => some (f, value)
  | (pre, std) :: rest, value, f =>
      match skip value pre with
      | none => none
      | some value =>
          match parseStd std value f with
          | none => none
          | some (f, value) => parseChunks rest value f

/-- Go `isLeap`; the years read by the layouts are not negative, where the
remainders of Go and of Lean agree. -/
def isLeap (year : Int) : Bool :=
  year % 4 == 0 && (year % 100 != 0 || year % 400 == 0)

/-- Go `daysBefore`: the number of days in a non-leap year before each month begins. -/
def daysBefore : List Int :=
  [0, 31, 31 + 28, 31 + 28 + 31, 31 + 28 + 31 + 30, 31 + 28 + 31 + 30 + 31,
   31 + 28 + 31 + 30 + 31 + 30, 31 + 28 + 31 + 30 + 31 + 30 + 31,
   31 + 28 + 31 + 30 + 31 + 30 + 31 + 31, 31 + 28 + 31 + 30 + 31 + 30 + 31 + 31 + 30,
   31 + 28 + 31 + 30 + 31 + 30 + 31 + 31 + 30 + 31,
   31 + 28 + 31 + 30 + 31 + 30 + 31 + 31 + 30 + 31 + 30,
   31 + 28 + 31 + 30 + 31 + 30 + 31 + 31 + 30 + 31 + 30 + 31]

/-- Go `daysIn(m, year)`. -/
def daysIn (m : Int) (year : Int) : Int :=
  if m == 2 && isLeap year then 29
  else daysBefore.getD m.toNat 0 - daysBefore.getD (m.toNat - 1) 0

/-- The chunks of the layout `"02/01/2006"`: `02`, then `/` `01`, then `/` `2006`. -/
def dateLayout : List (List Char × Std) :=
  [([], .stdZeroDay), (['/'], .stdZeroMonth), (['/'], .stdLongYear)]

/-- The chunks of the layout `"15:04"`: `15`, then `:` `04`. -/
def timeLayout : List (List Char × Std) :=
  [([], .stdHour), ([':'], .stdZeroMinute)]

/-- Go `time.Parse(layout, value)` for a layout given by its chunks, neither of
which ends in literal text: after the last element the value must be used up
(`extra text` otherwise), an unset month or day defaults to 1, and the day of
the month is validated.  `none` stands for a non-nil error. -/
def Parse (layout : List (List Char × Std)) (value : String) : Option Fields :=
  match parseChunks layout value.toList {} with
  | none => none
  | some (f, rest) =>
      if rest.length != 0 then none
      else
        let month := if f.month < 0 then 1 else f.month
        let day := if f.day < 0 then 1 else f.day
        if day < 1 || day > daysIn month f.year then none
        else some { f with month := month, day := day }

end GoTime

namespace TgBot

/-! ## `handler.go`: input validation -/

/-- The handler function `isValidDate`: `time.Parse("02/01/2006", dateStr)` returns no error. -/
def isValidDate (dateStr : String) : Bool :=
  (GoTime.Parse GoTime.dateLayout dateStr).isSome

/-- The handler function `isValidTime`: `time.Parse("15:04", timeStr)` returns no error. -/
def isValidTime (timeStr : String) : Bool :=
  (GoTime.Parse GoTime.timeLayout timeStr).isSome

/-! ## `models/user.go`, `state/state.go`: the data model -/

/-- Go `time.Time`, as the number of nanoseconds since the zero time
(January 1, year 1, 00:00:00 UTC); the zero value is `0`. -/
abbrev Time := Int

/-- The profile record `models.User`. -/
structure User where
  ID : Int
  FirstName : String := ""
  LastName : String := ""
  UserName : String := ""
  ZodiacSign : String := ""
  BirthDate : String := ""
  BirthTime : String := ""
  IsPremium : Bool := false
  PremiumExpiry : Time := 0
deriving DecidableEq, Repr

/-- The conversation state tags `state.State` (string constants in the source). -/
inductive State where
  | StateIdle
  | StateEditingName
  | StateEditingZodiac
  | StateEditingBirthDate
  | StateEditingBirthTime
  | StateBuyingPremium
deriving DecidableEq, Repr

/-- The record `userMessages` of the UI message tracker; `0` means "no message". -/
structure userMessages where
  promptMessageID : Int := 0
  profileMessageID : Int := 0
  invoiceMessageID : Int := 0
deriving DecidableEq, Repr

/-! ## The transport: requests the bot issues, and the updates it receives -/

/-- An inline keyboard button carrying callback data. -/
structure InlineKeyboardButton where
  Text : String
  CallbackData : String
deriving DecidableEq, Repr

/-- An inline keyboard: rows of buttons. -/
abbrev InlineKeyboardMarkup := List (List InlineKeyboardButton)

/-- The `tgbotapi` request values the handlers build. -/
inductive Chattable where
  | MessageConfig (ChatID : Int) (Text : String) (ReplyMarkup : Option InlineKeyboardMarkup)
  | EditMessageTextConfig (ChatID MessageID : Int) (Text : String)
      (ReplyMarkup : Option InlineKeyboardMarkup)
  | EditMessageReplyMarkupConfig (ChatID MessageID : Int) (ReplyMarkup : InlineKeyboardMarkup)
  | DeleteMessageConfig (ChatID MessageID : Int)
  | CallbackConfig (CallbackQueryID : String) (Text : String)
  | InvoiceConfig (ChatID : Int) (Title Description Payload ProviderToken Currency : String)
      (Prices : List (String × Int)) (SuggestedTipAmounts : List Int)
  | PreCheckoutConfig (PreCheckoutQueryID : String) (OK : Bool)
deriving DecidableEq, Repr

/-- The calls a handler makes to its collaborators, in the order it makes them:
the profile store, the transport (`bot.Send`, `bot.Request`) and the clock. -/
inductive Event where
  | GetUser (userID : Int)
  | SaveUser (user : User)
  | Send (c : Chattable)
  | Request (c : Chattable)
  | Now
deriving DecidableEq, Repr

/-- The sender of an update (`tgbotapi.User`). -/
structure TgUser where
  ID : Int
  FirstName : String := ""
  LastName : String := ""
  UserName : String := ""
deriving DecidableEq, Repr

/-- The fields of `tgbotapi.Message` the handlers read.  `Command` is
`some c` when `IsCommand()` holds, with `c` the result of `Command()`;
`SuccessfulPayment` tells whether that field is non-nil. -/
structure Message where
  MessageID : Int
  From : TgUser
  ChatID : Int
  Text : String := ""
  Command : Option String := none
  SuccessfulPayment : Bool := false
deriving DecidableEq, Repr

/-- The fields of `tgbotapi.CallbackQuery` the handlers read. -/
structure CallbackQuery where
  ID : String
  From : TgUser
  Message : Message
  Data : String
deriving DecidableEq, Repr

/-- The field of `tgbotapi.PreCheckoutQuery` the handlers read. -/
structure PreCheckoutQuery where
  ID : String
deriving DecidableEq, Repr

/-- An inbound `tgbotapi.Update`; `none` is a nil pointer. -/
structure Update where
  Message : Option Message := none
  CallbackQuery : Option CallbackQuery := none
  PreCheckoutQuery : Option PreCheckoutQuery := none
deriving DecidableEq, Repr

/-! ## The process state and its environment -/

/-- What the collaborators answer.  A call is identified by its position in
the sequence of calls made so far (`World.events`).

* `readErr n`: the error, if any, with which the storage engine fails a query made at position `n`;
* `writeErr n`: the error, if any, with which it fails a write made at position `n`;
* `api n`: what the transport answers to the call at position `n`, the identifier
  of the message concerned or an error text;
* `clock n`: what `time.Now()` reads at position `n`;
* `AddDate`: Go `Time.AddDate` in the zone of the process;
* `f64`: the rounding of an exact result to a `float64`. -/
structure Env where
  readErr : Nat → Option String
  writeErr : Nat → Option String
  api : Nat → Except String Int
  clock : Nat → Time
  AddDate : Time → Int → Int → Int → Time
  f64 : ℚ → ℚ

/-- The state a handler runs in: the table `users` (every row is written by
`SaveUser`, so no column is ever NULL), the map `userStates` of the state
store, the map `userMessageIDs` of the handler package, the calls made so far
and the lines logged so far. -/
structure World where
  users : Int → Option User
  userStates : Int → Option State
  userMessageIDs : Int → Option userMessages
  events : List Event := []
  logs : List String := []

/-- Records a call to a collaborator. -/
def World.emit (w : World) (e : Event) : World :=
  { w with events := w.events ++ [e] }

/-- Go `log.Printf`: the format string is recorded, the error value it interpolates is not. -/
def logPrintf (line : String) (w : World) : World :=
  { w with logs := w.logs ++ [line] }

/-! ## `database/database.go` -/

/-- The function `database.SaveUser`: `INSERT OR REPLACE` of the whole record,
keyed by `id`; returns the error of `DB.Exec`, and a failed statement leaves
the table as it was. -/
def SaveUser (env : Env) (user : User) (w : World) : World × Option String :=
  match env.writeErr w.events.length with
  | some err => (w.emit (.SaveUser user), some err)
  | none =>
      ({ w.emit (.SaveUser user) with users := Function.update w.users user.ID (some user) }, none)

/-- The function `database.GetUser`: the row with this `id`, the error
`user not found` when there is none, or the error of the query. -/
def GetUser (env : Env) (userID : Int) (w : World) : World × Except String User :=
  match env.readErr w.events.length with
  | some err => (w.emit (.GetUser userID), .error err)
  | none =>
      match w.users userID with
      | none => (w.emit (.GetUser userID), .error "user not found")
      | some user => (w.emit (.GetUser userID), .ok user)

/-! ## `state/state.go` -/

/-- The function `state.SetState`. -/
def SetState (userID : Int) (state : State) (w : World) : World :=
  { w with userStates := Function.update w.userStates userID (some state) }

/-- The function `state.GetState`: an absent entry reads as `StateIdle`. -/
def GetState (w : World) (userID : Int) : State :=
  match w.userStates userID with
  | some userState => userState
  | none => .StateIdle

/-- The function `state.ClearState`: deletes the entry. -/
def ClearState (userID : Int) (w : World) : World :=
  { w with userStates := Function.update w.userStates userID none }

/-! ## The transport and the clock -/

/-- The method `bot.Send`: issues the request and returns the identifier of the
resulting message, or the error. -/
def botSend (env : Env) (c : Chattable) (w : World) : World × Except String Int :=
  (w.emit (.Send c), env.api w.events.length)

/-- The method `bot.Request`: issues the request and returns the error, if any. -/
def botRequest (env : Env) (c : Chattable) (w : World) : World × Except String Int :=
  (w.emit (.Request c), env.api w.events.length)

/-- Go `time.Now()`. -/
def timeNow (env : Env) (w : World) : World × Time :=
  (w.emit .Now, env.clock w.events.length)

/-- Go `Time.Sub`: the difference as a `Duration` (an `int64` count of
nanoseconds), saturating at the largest and smallest `Duration`. -/
def Time.Sub (t u : Time) : Int :=
  if t - u < -(2 ^ 63) then -(2 ^ 63)
  else if 2 ^ 63 - 1 < t - u then 2 ^ 63 - 1
  else t - u

/-- Go `Duration.Hours`: `float64(d / Hour) + float64(d % Hour) / (60 * 60 * 1e9)`,
with the integer division and remainder truncating as in Go. -/
def Hours (env : Env) (d : Int) : ℚ :=
  let hour := Int.tdiv d 3600000000000
  let nsec := Int.tmod d 3600000000000
  env.f64 (env.f64 (hour : ℚ) + env.f64 (env.f64 (nsec : ℚ) / 3600000000000))

/-- Go `int(x)` for a `float64` within range: the fraction is discarded. -/
def truncToInt (x : ℚ) : Int :=
  if 0 ≤ x then ⌊x⌋ else ⌈x⌉

/-- Go `strings.Contains`. -/
def Contains (s substr : String) : Bool :=
  decide (substr.toList <:+: s.toList)

/-- Go `strings.HasPrefix`. -/
def HasPrefix (s pre : String) : Bool :=
  s.toList.take pre.length == pre.toList

/-- Go `strings.TrimPrefix`. -/
def TrimPrefix (s pre : String) : String :=
  if HasPrefix s pre then String.mk (s.toList.drop pre.length) else s

/-- Go `fmt.Sprintf("%d", n)`. -/
def Sprintf_d (n : Int) : String :=
  toString n

/-! ## `handler/handler.go` -/

/-- The idiom `if _, err := ...; err != nil { log.Printf(line, err) }`. -/
def logOnErr {α : Type} (r : Except String α) (line : String) (w : World) : World :=
  match r with
  | .error _ => logPrintf line w
  | .ok _ => w

/-- The idiom `userMsg, exists := userMessageIDs[userID]; if !exists { ... }`:
an absent tracker record is created empty. -/
def trackUser (userID : Int) (w : World) : World :=
  match w.userMessageIDs userID with
  | some _ => w
  | none => { w with userMessageIDs := Function.update w.userMessageIDs userID (some {}) }

/-- The record the pointer `userMsg` of a tracked user points to. -/
def userMsg (w : World) (userID : Int) : userMessages :=
  (w.userMessageIDs userID).getD {}

/-- The assignment `userMsg.promptMessageID = id`, through the pointer held in the map. -/
def setPromptMessageID (userID id : Int) (w : World) : World :=
  { w with userMessageIDs :=
      Function.update w.userMessageIDs userID (some { userMsg w userID with promptMessageID := id }) }

/-- The assignment `userMsg.profileMessageID = id`. -/
def setProfileMessageID (userID id : Int) (w : World) : World :=
  { w with userMessageIDs :=
      Function.update w.userMessageIDs userID (some { userMsg w userID with profileMessageID := id }) }

/-- The assignment `userMsg.invoiceMessageID = id`. -/
def setInvoiceMessageID (userID id : Int) (w : World) : World :=
  { w with userMessageIDs :=
      Function.update w.userMessageIDs userID (some { userMsg w userID with invoiceMessageID := id }) }

/-- The constructor `tgbotapi.NewInlineKeyboardButtonData`. -/
def NewInlineKeyboardButtonData (text data : String) : InlineKeyboardButton :=
  { Text := text, CallbackData := data }

/-- The function `profileKeyboard`. -/
def profileKeyboard : InlineKeyboardMarkup :=
  [[NewInlineKeyboardButtonData "Изменить имя" "edit_name",
    NewInlineKeyboardButtonData "Изменить знак зодиака" "edit_zodiac"],
   [NewInlineKeyboardButtonData "Изменить дату рождения" "edit_birthdate",
    NewInlineKeyboardButtonData "Изменить время рождения" "edit_birthtime"],
   [NewInlineKeyboardButtonData "Купить премиум" "buy_premium"]]

/-- The function `cancelKeyboard`. -/
def cancelKeyboard : InlineKeyboardMarkup :=
  [[NewInlineKeyboardButtonData "Отменить" "cancel"]]

/-- The table `zodiacSigns` of `zodiacKeyboard`: code and label. -/
def zodiacSigns : List (String × String) :=
  [("aries", "♈️ Овен"), ("taurus", "♉️ Телец"), ("gemini", "♊️ Близнецы"),
   ("cancer", "♋️ Рак"), ("leo", "♌️ Лев"), ("virgo", "♍️ Дева"),
   ("libra", "♎️ Весы"), ("scorpio", "♏️ Скорпион"), ("sagittarius", "♐️ Стрелец"),
   ("capricorn", "♑️ Козерог"), ("aquarius", "♒️ Водолей"), ("pisces", "♓️ Рыбы")]

/-- The loop of `zodiacKeyboard`: two signs per row. -/
def zodiacRows : List (String × String) → List (List InlineKeyboardButton)
  | a :: b :: rest =>
      [NewInlineKeyboardButtonData a.2 ("zodiac_" ++ a.1),
       NewInlineKeyboardButtonData b.2 ("zodiac_" ++ b.1)] :: zodiacRows rest
  | [a] => [[NewInlineKeyboardButtonData a.2 ("zodiac_" ++ a.1)]]
  | [] => []

/-- The function `zodiacKeyboard`: the sign rows and a trailing cancel row. -/
def zodiacKeyboard : InlineKeyboardMarkup :=
  zodiacRows zodiacSigns ++ [[NewInlineKeyboardButtonData "Отменить" "cancel"]]

/-- The map `zodiacMap` of `handleCallbackQuery`. -/
def zodiacMap (zodiacCode : String) : Option String :=
  if zodiacCode = "aries" then some "♈️ Овен"
  else if zodiacCode = "taurus" then some "♉️ Телец"
  else if zodiacCode = "gemini" then some "♊️ Близнецы"
  else if zodiacCode = "cancer" then some "♋️ Рак"
  else if zodiacCode = "leo" then some "♌️ Лев"
  else if zodiacCode = "virgo" then some "♍️ Дева"
  else if zodiacCode = "libra" then some "♎️ Весы"
  else if zodiacCode = "scorpio" then some "♏️ Скорпион"
  else if zodiacCode = "sagittarius" then some "♐️ Стрелец"
  else if zodiacCode = "capricorn" then some "♑️ Козерог"
  else if zodiacCode = "aquarius" then some "♒️ Водолей"
  else if zodiacCode = "pisces" then some "♓️ Рыбы"
  else none

/-- The function `removeProfileButtons`: strips the buttons of the tracked
profile card, if there is one. -/
def removeProfileButtons (env : Env) (userID chatID : Int) (w : World) : World :=
  match w.userMessageIDs userID with
  | none => w
  | some userMsg =>
      if userMsg.profileMessageID == 0 then w
      else
        let (w, r) := botRequest env
          (.EditMessageReplyMarkupConfig chatID userMsg.profileMessageID []) w
        match r with
        | .error err =>
            if Contains err "message is not modified" then w
            else logPrintf "Error removing buttons from profile message: %v" w
        | .ok _ => w

/-- The expression `int(user.PremiumExpiry.Sub(time.Now()).Hours() / 24)` of `handleProfile`. -/
def daysLeft (env : Env) (expiry now : Time) : Int :=
  truncToInt (env.f64 (Hours env (Time.Sub expiry now) / 24))

/-- The value of `premiumStatus` in `handleProfile` for a premium user. -/
def premiumStatus (env : Env) (expiry now : Time) : String :=
  "Истекает через " ++ Sprintf_d (daysLeft env expiry now) ++ " дней"

/-- The value of `profileText` in `handleProfile`, given the premium status line. -/
def profileText (user : User) (premiumStatus : String) : String :=
  let firstName := if user.FirstName = "" then "неизвестно" else user.FirstName
  let birthDate := if user.BirthDate = "" then "неизвестно" else user.BirthDate
  let birthTime := if user.BirthTime = "" then "неизвестно" else user.BirthTime
  let zodiacSign := if user.ZodiacSign = "" then "неизвестно" else user.ZodiacSign
  "Имя: " ++ firstName ++ "\nЗнак зодиака: " ++ zodiacSign ++ "\nДата рождения: " ++ birthDate
    ++ "\nВремя рождения: " ++ birthTime ++ "\nПремиум: " ++ premiumStatus

/-- The function `handleProfile`. -/
def handleProfile (env : Env) (userID chatID : Int) (sendNew : Bool) (w : World) : World :=
  match GetUser env userID w with
  | (w, .error _) =>
      let (w, r) := botSend env (.MessageConfig chatID
        "Профиль не найден. Пожалуйста, используйте /start для регистрации." none) w
      logOnErr r "Error sending message: %v" w
  | (w, .ok user) =>
      let w := removeProfileButtons env userID chatID w
      let (w, status) :=
        if user.IsPremium then
          let (w, now) := timeNow env w
          (w, premiumStatus env user.PremiumExpiry now)
        else (w, "Нет")
      let text := profileText user status
      let w := trackUser userID w
      if sendNew || (userMsg w userID).profileMessageID == 0 then
        let (w, r) := botSend env (.MessageConfig chatID text (some profileKeyboard)) w
        match r with
        | .error _ => logPrintf "Error sending profile message: %v" w
        | .ok sentID => setProfileMessageID userID sentID w
      else
        let (w, r) := botSend env (.EditMessageTextConfig chatID
          (userMsg w userID).profileMessageID text (some profileKeyboard)) w
        match r with
        | .error err =>
            if Contains err "message is not modified" then w
            else logPrintf "Error editing profile message: %v" w
        | .ok _ => w

/-- The function `handleStart`. -/
def handleStart (env : Env) (m : Message) (w : World) : World :=
  let userID := m.From.ID
  let chatID := m.ChatID
  let w := removeProfileButtons env userID chatID w
  match GetUser env userID w with
  | (w, .ok _) =>
      let (w, r) := botSend env (.MessageConfig chatID "Вы уже зарегистрированы." none) w
      logOnErr r "Error sending already registered message: %v" w
  | (w, .error _) =>
      let user : User :=
        { ID := userID, FirstName := m.From.FirstName, LastName := m.From.LastName,
          UserName := m.From.UserName }
      let (w, err) := SaveUser env user w
      let w := match err with
        | some _ => logPrintf "Error saving user: %v" w
        | none => w
      let (w, r) := botSend env (.MessageConfig chatID "Добро пожаловать!" none) w
      logOnErr r "Error sending welcome message: %v" w

/-- The function `handleCommand`. -/
def handleCommand (env : Env) (m : Message) (command : String) (w : World) : World :=
  if command = "start" then handleStart env m w
  else if command = "profile" then handleProfile env m.From.ID m.ChatID true w
  else
    let (w, r) := botSend env (.MessageConfig m.ChatID "Неизвестная команда." none) w
    logOnErr r "Error sending unknown command message: %v" w

/-- The function `sendInvoice`. -/
def sendInvoice (env : Env) (chatID : Int) (user : TgUser) (w : World) : World :=
  let invoice := Chattable.InvoiceConfig chatID "Премиум подписка"
    "Получите доступ к премиум функциям" "payload_premium_subscription" "" "XTR"
    [("Премиум подписка на 1 месяц", 1)] []
  let (w, r) := botSend env invoice w
  match r with
  | .error _ => logPrintf "Error sending invoice: %v" w
  | .ok sentID => setInvoiceMessageID user.ID sentID (trackUser user.ID w)

/-- The tail of `handleCallbackQuery`: the acknowledgement of the callback query. -/
def acknowledge (env : Env) (q : CallbackQuery) (w : World) : World :=
  let (w, r) := botRequest env (.CallbackConfig q.ID "") w
  logOnErr r "Error acknowledging callback query: %v" w

/-- The function `handleCallbackQuery`.  The statements after the `switch`
are `acknowledge`; the two `return`s inside the `zodiac_` branch leave the
function without reaching them. -/
def handleCallbackQuery (env : Env) (q : CallbackQuery) (w : World) : World :=
  let data := q.Data
  let chatID := q.Message.ChatID
  let messageID := q.Message.MessageID
  let userID := q.From.ID
  let w := trackUser userID w
  if data = "edit_name" then
    let w := SetState userID .StateEditingName w
    let (w, r) := botSend env (.EditMessageTextConfig chatID messageID
      "Пожалуйста, введите Ваше имя:" (some cancelKeyboard)) w
    let w := logOnErr r "Error editing message for edit_name: %v" w
    acknowledge env q (setPromptMessageID userID messageID w)
  else if data = "edit_zodiac" then
    let w := SetState userID .StateEditingZodiac w
    let (w, r) := botSend env (.EditMessageTextConfig chatID messageID
      "Пожалуйста, выберите Ваш знак зодиака:" (some zodiacKeyboard)) w
    let w := logOnErr r "Error editing message for edit_zodiac: %v" w
    acknowledge env q (setPromptMessageID userID messageID w)
  else if data = "edit_birthdate" then
    let w := SetState userID .StateEditingBirthDate w
    let (w, r) := botSend env (.EditMessageTextConfig chatID messageID
      "Пожалуйста, введите Вашу дату рождения (дд/мм/гггг):" (some cancelKeyboard)) w
    let w := logOnErr r "Error editing message for edit_birthdate: %v" w
    acknowledge env q (setPromptMessageID userID messageID w)
  else if data = "edit_birthtime" then
    let w := SetState userID .StateEditingBirthTime w
    let (w, r) := botSend env (.EditMessageTextConfig chatID messageID
      "Пожалуйста, введите Ваше время рождения (чч:мм):" (some cancelKeyboard)) w
    let w := logOnErr r "Error editing message for edit_birthtime: %v" w
    acknowledge env q (setPromptMessageID userID messageID w)
  else if data = "buy_premium" then
    acknowledge env q (sendInvoice env chatID q.From w)
  else if data = "cancel" then
    let w := ClearState userID w
    acknowledge env q (handleProfile env userID chatID false w)
  else if HasPrefix data "zodiac_" then
    let zodiacCode := TrimPrefix data "zodiac_"
    match zodiacMap zodiacCode with
    | none => logPrintf "Unknown zodiac code: %v" w
    | some zodiac =>
        match GetUser env userID w with
        | (w, .error _) => logPrintf "Error fetching user: %v" w
        | (w, .ok user) =>
            let user := { user with ZodiacSign := zodiac }
            let (w, err) := SaveUser env user w
            let w := match err with
              | some _ => logPrintf "Error updating user zodiac sign: %v" w
              | none => w
            let w := ClearState userID w
            acknowledge env q (handleProfile env userID chatID false w)
  else
    acknowledge env q (logPrintf "Unknown callback data: %v" w)

/-- The function `handleMessage`. -/
def handleMessage (env : Env) (m : Message) (w : World) : World :=
  let text := m.Text
  let userID := m.From.ID
  let chatID := m.ChatID
  let currentState := GetState w userID
  let w := trackUser userID w
  match currentState with
  | .StateEditingName =>
      match GetUser env userID w with
      | (w, .error _) => logPrintf "Error fetching user: %v" w
      | (w, .ok user) =>
          let user := { user with FirstName := text }
          let (w, err) := SaveUser env user w
          let w := match err with
            | some _ => logPrintf "Error updating user name: %v" w
            | none => w
          let (w, r) := botRequest env (.DeleteMessageConfig chatID m.MessageID) w
          let w := logOnErr r "Error deleting user's message: %v" w
          let w := ClearState userID w
          handleProfile env userID chatID false w
  | .StateEditingBirthDate =>
      if !isValidDate text then
        let (w, r) := botSend env (.MessageConfig chatID
          "Некорректная дата. Пожалуйста, введите дату в формате дд/мм/гггг:"
          (some cancelKeyboard)) w
        logOnErr r "Error sending invalid date message: %v" w
      else
        match GetUser env userID w with
        | (w, .error _) => logPrintf "Error fetching user: %v" w
        | (w, .ok user) =>
            let user := { user with BirthDate := text }
            let (w, err) := SaveUser env user w
            let w := match err with
              | some _ => logPrintf "Error updating user birth date: %v" w
              | none => w
            let (w, r) := botRequest env (.DeleteMessageConfig chatID m.MessageID) w
            let w := logOnErr r "Error deleting user's message: %v" w
            let w := ClearState userID w
            handleProfile env userID chatID false w
  | .StateEditingBirthTime =>
      if !isValidTime text then
        let (w, r) := botSend env (.MessageConfig chatID
          "Некорректное время. Пожалуйста, введите время в формате чч:мм:"
          (some cancelKeyboard)) w
        logOnErr r "Error sending invalid time message: %v" w
      else
        match GetUser env userID w with
        | (w, .error _) => logPrintf "Error fetching user: %v" w
        | (w, .ok user) =>
            let user := { user with BirthTime := text }
            let (w, err) := SaveUser env user w
            let w := match err with
              | some _ => logPrintf "Error updating user birth time: %v" w
              | none => w
            let (w, r) := botRequest env (.DeleteMessageConfig chatID m.MessageID) w
            let w := logOnErr r "Error deleting user's message: %v" w
            let w := ClearState userID w
            handleProfile env userID chatID false w
  | _ =>
      let (w, r) := botSend env (.MessageConfig chatID
        "Я не понимаю это сообщение. Пожалуйста, используйте команды или кнопки для взаимодействия со мной."
        none) w
      let w := logOnErr r "Error sending default message: %v" w
      removeProfileButtons env userID chatID w

/-- The function `handlePreCheckoutQuery`. -/
def handlePreCheckoutQuery (env : Env) (p : PreCheckoutQuery) (w : World) : World :=
  let (w, r) := botRequest env (.PreCheckoutConfig p.ID true) w
  logOnErr r "Error in pre-checkout: %v" w

/-- The last statement of `handleSuccessfulPayment`, `userMsg, exists :=
userMessageIDs[userID]; if exists { ... }`: only for a user with a tracker
record, the tracked invoice message is deleted and its id reset, and the
profile card is rendered. -/
def afterPayment (env : Env) (userID chatID : Int) (w : World) : World :=
  match w.userMessageIDs userID with
  | some userMsg =>
      let w :=
        if userMsg.invoiceMessageID != 0 then
          let (w, r) := botRequest env (.DeleteMessageConfig chatID userMsg.invoiceMessageID) w
          let w := logOnErr r "Error deleting invoice message: %v" w
          setInvoiceMessageID userID 0 w
        else w
      handleProfile env userID chatID false w
  | none => w

/-- The function `handleSuccessfulPayment`. -/
def handleSuccessfulPayment (env : Env) (m : Message) (w : World) : World :=
  let userID := m.From.ID
  let chatID := m.ChatID
  let (w, r) := botRequest env (.DeleteMessageConfig chatID m.MessageID) w
  let w := logOnErr r "Error deleting payment confirmation message: %v" w
  match GetUser env userID w with
  | (w, .error _) => logPrintf "Error fetching user: %v" w
  | (w, .ok user) =>
      let user := { user with IsPremium := true }
      let (w, now) := timeNow env w
      let user := { user with PremiumExpiry := env.AddDate now 0 1 0 }
      let (w, err) := SaveUser env user w
      let w := match err with
        | some _ => logPrintf "Error updating user: %v" w
        | none => w
      afterPayment env userID chatID w

/-- The function `HandleUpdate`.  The handlers receive the part of the update
that was found non-nil. -/
def HandleUpdate (env : Env) (update : Update) (w : World) : World :=
  match update.Message with
  | some m =>
      match m.Command with
      | some command => handleCommand env m command w
      | none =>
          if m.SuccessfulPayment then handleSuccessfulPayment env m w
          else handleMessage env m w
  | none =>
      match update.CallbackQuery with
      | some q => handleCallbackQuery env q w
      | none =>
          match update.PreCheckoutQuery with
          | some p => handlePreCheckoutQuery env p w
          | none => w

/-! ## Input validation: the written forms, as the specification words them -/

/-- A leap year of the Gregorian calendar. -/
def leapYear (y : Nat) : Prop :=
  (y % 4 = 0 ∧ y % 100 ≠ 0) ∨ y % 400 = 0

instance (y : Nat) : Decidable (leapYear y) := by
  unfold leapYear
  infer_instance

/-- The number of days of month `m` (1 to 12) in year `y`. -/
def monthLength (y m : Nat) : Nat :=
  if m = 2 then (if leapYear y then 29 else 28)
  else if m = 4 ∨ m = 6 ∨ m = 9 ∨ m = 11 then 30
  else 31

/-- The character that writes the decimal digit `n`. -/
def digitChar (n : Nat) : Char :=
  Char.ofNat (48 + n)

/-- A number below 100 written with two digits. -/
def twoDigits (n : Nat) : List Char :=
  [digitChar (n / 10), digitChar (n % 10)]

/-- A number below 10000 written with four digits. -/
def fourDigits (n : Nat) : List Char :=
  [digitChar (n / 1000), digitChar (n / 100 % 10), digitChar (n / 10 % 10), digitChar (n % 10)]

/-- The string is a real calendar date written day/month/year: two-digit day,
`/`, two-digit month, `/`, four-digit year, and nothing else. -/
def IsCalendarDate (s : String) : Prop :=
  ∃ d m y : Nat, y ≤ 9999 ∧ 1 ≤ m ∧ m ≤ 12 ∧ 1 ≤ d ∧ d ≤ monthLength y m ∧
    s.toList = twoDigits d ++ '/' :: (twoDigits m ++ '/' :: fourDigits y)

/-- The character is one of `0` to `9`. -/
def IsDigitChar (c : Char) : Prop :=
  48 ≤ c.toNat ∧ c.toNat ≤ 57

instance (c : Char) : Decidable (IsDigitChar c) := by
  unfold IsDigitChar
  infer_instance

/-- The value of a digit character. -/
def digitVal (c : Char) : Nat :=
  c.toNat - 48

/-- The value of two digit characters read as a decimal number. -/
def num2 (a b : Char) : Nat :=
  digitVal a * 10 + digitVal b

/-- The value of four digit characters read as a decimal number. -/
def num4 (a b c d : Char) : Nat :=
  digitVal a * 1000 + digitVal b * 100 + digitVal c * 10 + digitVal d

/-- The string is a 24-hour time written hh:mm: two-digit hour 00 to 23, `:`,
two-digit minute 00 to 59, and nothing else. -/
def IsTimeHHMM (s : String) : Prop :=
  ∃ h m : Nat, h ≤ 23 ∧ m ≤ 59 ∧ s.toList = twoDigits h ++ ':' :: twoDigits m

/-- The string is a 24-hour time written hour:minute, the hour 0 to 23 with
two digits or, below 10, with one digit only; `:`; the minute 00 to 59 with
two digits; and nothing else. -/
def IsTimeHMM (s : String) : Prop :=
  ∃ h m : Nat, h ≤ 23 ∧ m ≤ 59 ∧
    (s.toList = twoDigits h ++ ':' :: twoDigits m ∨
      (h ≤ 9 ∧ s.toList = digitChar h :: ':' :: twoDigits m))

/-! ## Reading the record of calls -/

/-- The profile store writes among a sequence of calls, in order. -/
def saves : List Event → List User
  | [] => []
  | .SaveUser u :: es => u :: saves es
  | _ :: es => saves es

/-- The requests issued through `bot.Send` among a sequence of calls, in order. -/
def sends : List Event → List Chattable
  | [] => []
  | .Send c :: es => c :: sends es
  | _ :: es => sends es

/-- The requests issued through `bot.Send` or `bot.Request` among a sequence of calls, in order. -/
def transportCalls : List Event → List Chattable
  | [] => []
  | .Send c :: es => c :: transportCalls es
  | .Request c :: es => c :: transportCalls es
  | _ :: es => transportCalls es

/-- The storage engine serves every call. -/
def Env.storageOk (env : Env) : Prop :=
  ∀ n, env.readErr n = none ∧ env.writeErr n = none

/-- From `w` to `w'` the profile store and the conversation states are left
as they were and no profile store write was attempted. -/
def ReadOnly (w w' : World) : Prop :=
  w'.users = w.users ∧ w'.userStates = w.userStates ∧
    ∃ evs, w'.events = w.events ++ evs ∧ saves evs = []

/-! ## The edit flows driven by text input, as the specification words them -/

/-- The profile fields a user edits by sending text. -/
inductive Field where
  | Name
  | BirthDate
  | BirthTime
deriving DecidableEq, Repr

/-- The conversation state in which the field is being edited. -/
def Field.state : Field → State
  | .Name => .StateEditingName
  | .BirthDate => .StateEditingBirthDate
  | .BirthTime => .StateEditingBirthTime

/-- The validation of the field: none for the name. -/
def Field.valid : Field → String → Bool
  | .Name, _ => true
  | .BirthDate, text => isValidDate text
  | .BirthTime, text => isValidTime text

/-- The profile with the field set to the text and every other field as it was. -/
def Field.set : Field → User → String → User
  | .Name, user, text => { user with FirstName := text }
  | .BirthDate, user, text => { user with BirthDate := text }
  | .BirthTime, user, text => { user with BirthTime := text }

/-- The error text sent when the validation of the field fails. -/
def Field.errorText : Field → String
  | .Name => ""
  | .BirthDate => "Некорректная дата. Пожалуйста, введите дату в формате дд/мм/гггг:"
  | .BirthTime => "Некорректное время. Пожалуйста, введите время в формате чч:мм:"

/-- No storage failure, every transport call answered with message identifier 500,
the clock at a fixed reading, a month taken as thirty days, exact `float64` results. -/
def calmEnv : Env :=
  { readErr := fun _ => none
    writeErr := fun _ => none
    api := fun _ => .ok 500
    clock := fun _ => 63000000000000000000
    AddDate := fun t years months days =>
      t + (years * 365 + months * 30 + days) * 86400000000000
    f64 := fun x => x }

/-- A world with nothing stored and nobody in a conversation. -/
def emptyWorld : World :=
  { users := fun _ => none, userStates := fun _ => none, userMessageIDs := fun _ => none }

/-- A registered user of the sample worlds. -/
def alice : User :=
  { ID := 7, FirstName := "Alice", UserName := "alice" }

/-- A world where `alice` is registered and in the given conversation state. -/
def aliceIn (s : State) : World :=
  { users := fun i => if i = 7 then some alice else none
    userStates := fun i => if i = 7 then some s else none
    userMessageIDs := fun _ => none }

/-- A text message from `alice`, with message identifier 42 in chat 70. -/
def aliceSays (text : String) : Message :=
  { MessageID := 42, From := { ID := 7, FirstName := "Alice", UserName := "alice" },
    ChatID := 70, Text := text }

/-- The request shows the profile card of the record: the profile text with
some premium status line and the profile keyboard, as a new message or as an
edit of an existing one. -/
def IsProfileCard (chatID : Int) (user : User) (c : Chattable) : Prop :=
  ∃ status : String,
    c = .MessageConfig chatID (profileText user status) (some profileKeyboard) ∨
    ∃ id : Int, c = .EditMessageTextConfig chatID id (profileText user status) (some profileKeyboard)

/-- The profile with the premium flag set and the given expiry, every other field as it was. -/
def withPremium (user : User) (expiry : Time) : User :=
  { user with IsPremium := true, PremiumExpiry := expiry }

/-- The payment-confirmation message of `alice`, with message identifier 43 in chat 70. -/
def alicePays : Message :=
  { MessageID := 43, From := { ID := 7, FirstName := "Alice", UserName := "alice" },
    ChatID := 70, SuccessfulPayment := true }

/-- A world where `alice` is registered and the tracker holds the profile card
(message 500) and a pending invoice (message 501). -/
def aliceInvoiced : World :=
  { users := fun i => if i = 7 then some alice else none
    userStates := fun _ => none
    userMessageIDs := fun i =>
      if i = 7 then some { profileMessageID := 500, invoiceMessageID := 501 } else none }

/-- As `calmEnv`, but the storage engine fails every write. -/
def fullDiskEnv : Env :=
  { calmEnv with writeErr := fun _ => some "database or disk is full" }

/-- The storage engine serves every query and fails every write. -/
def Env.writesFail (env : Env) : Prop :=
  ∀ n, env.readErr n = none ∧ env.writeErr n ≠ none

/-- What the development assumes of the rounding `f64` of exact results to
`float64`, each a property of IEEE 754 round-to-nearest on binary64: it is
monotone and odd, it leaves the integers up to `2^53` as they are, and in the
range `2^-64` to `2^64` it rounds up by a relative error of at most `2^-53`. -/
def Env.roundsLikeFloat64 (env : Env) : Prop :=
  (∀ x y : ℚ, x ≤ y → env.f64 x ≤ env.f64 y) ∧
  (∀ x : ℚ, env.f64 (-x) = -env.f64 x) ∧
  (∀ n : Int, -(2 ^ 53) ≤ n → n ≤ 2 ^ 53 → env.f64 (n : ℚ) = (n : ℚ)) ∧
  (∀ x : ℚ, 1 / 2 ^ 64 ≤ x → x ≤ 2 ^ 64 → env.f64 x ≤ x * (1 + 1 / 2 ^ 53))

/-- A world where `alice` is registered with a premium subscription that
expired 36 hours before the clock reading of `calmEnv`. -/
def aliceExpired : World :=
  { users := fun i =>
      if i = 7 then
        some { ID := 7, FirstName := "Alice", UserName := "alice", IsPremium := true,
               PremiumExpiry := 62999870400000000000 }
      else none
    userStates := fun _ => none
    userMessageIDs := fun _ => none }

/-! ## The edit buttons, as the specification words them -/

/-- The four edit buttons of the profile keyboard. -/
inductive EditButton where
  | Name
  | Zodiac
  | BirthDate
  | BirthTime
deriving DecidableEq, Repr

/-- The callback payload of the button. -/
def EditButton.data : EditButton → String
  | .Name => "edit_name"
  | .Zodiac => "edit_zodiac"
  | .BirthDate => "edit_birthdate"
  | .BirthTime => "edit_birthtime"

/-- The conversation state the button leads to. -/
def EditButton.state : EditButton → State
  | .Name => .StateEditingName
  | .Zodiac => .StateEditingZodiac
  | .BirthDate => .StateEditingBirthDate
  | .BirthTime => .StateEditingBirthTime

/-- The instruction that replaces the text of the message the button is pressed on. -/
def EditButton.promptText : EditButton → String
  | .Name => "Пожалуйста, введите Ваше имя:"
  | .Zodiac => "Пожалуйста, выберите Ваш знак зодиака:"
  | .BirthDate => "Пожалуйста, введите Вашу дату рождения (дд/мм/гггг):"
  | .BirthTime => "Пожалуйста, введите Ваше время рождения (чч:мм):"

/-- The keyboard shown with the instruction: the signs for the zodiac, the
cancel button alone for the others. -/
def EditButton.keyboard : EditButton → InlineKeyboardMarkup
  | .Zodiac => zodiacKeyboard
  | _ => cancelKeyboard

/-- The button that starts the edit of a field edited by text. -/
def Field.button : Field → EditButton
  | .Name => .Name
  | .BirthDate => .BirthDate
  | .BirthTime => .BirthTime

/-- The press of an edit button by `sender` on the message `msg`. -/
def pressEdit (b : EditButton) (id : String) (sender : TgUser) (msg : Message) : CallbackQuery :=
  { ID := id, From := sender, Message := msg, Data := b.data }

/-- The request that shows the profile card of a record when `tracked` is the
identifier of the tracked profile card: an edit of that message in place, or a
new message when no card is tracked (`tracked = 0`). -/
def cardRequest (chatID tracked : Int) (user : User) (status : String) : Chattable :=
  if tracked == 0 then .MessageConfig chatID (profileText user status) (some profileKeyboard)
  else .EditMessageTextConfig chatID tracked (profileText user status) (some profileKeyboard)

/-- The message with identifier `id` in chat 70 on which `alice` presses a button. -/
def aliceCard (id : Int) : Message :=
  { MessageID := id, From := { ID := 7, FirstName := "Alice", UserName := "alice" }, ChatID := 70 }

/-- The sender of the updates of `alice`. -/
def aliceSender : TgUser :=
  { ID := 7, FirstName := "Alice", UserName := "alice" }

/-- A world where `alice` is registered, idle, and the tracker holds the given
profile card and nothing else. -/
def aliceWithCard (card : Int) : World :=
  { users := fun i => if i = 7 then some alice else none
    userStates := fun _ => none
    userMessageIDs := fun i => if i = 7 then some { profileMessageID := card } else none }


/-! ## Sample data for a registration while the store fails its reads -/

/-- As `calmEnv`, but the storage engine fails every query; writes are served. -/
def lockedReadEnv : Env :=
  { calmEnv with readErr := fun _ => some "database is locked" }

/-- The record of `alice` after the sign Aries and a birth date were stored. -/
def aliceOfAries : User :=
  { alice with ZodiacSign := "♈️ Овен", BirthDate := "15/06/1990" }

/-- A world where `alice` is registered with the record `aliceOfAries`. -/
def ariesWorld : World :=
  { users := fun i => if i = 7 then some aliceOfAries else none
    userStates := fun _ => none
    userMessageIDs := fun _ => none }
/-! ## Lemmas on the parser -/

theorem digitChar_toNat (k : Nat) (hk : k ≤ 9) : (digitChar k).toNat = 48 + k := by
  interval_cases k <;> rfl

theorem digitChar_val (c : Char) (h1 : 48 ≤ c.toNat) : digitChar (c.toNat - 48) = c := by
  unfold digitChar
  rw [Nat.add_sub_cancel' h1]
  exact Char.ofNat_toNat c

theorem getnum_fixed_iff (s : List Char) (n : Int) (r : List Char) :
    GoTime.getnum s true = some (n, r) ↔
      ∃ a b : Char, s = a :: b :: r ∧ IsDigitChar a ∧ IsDigitChar b ∧
        n = ((digitVal a * 10 + digitVal b : Nat) : Int) := by
  constructor
  · intro h
    rcases s with _ | ⟨a, _ | ⟨b, rest⟩⟩
    · simp [GoTime.getnum, GoTime.isDigit] at h
    · simp [GoTime.getnum, GoTime.isDigit] at h
    · simp only [GoTime.getnum, GoTime.isDigit, GoTime.digitAt] at h
      simp at h
      obtain ⟨h1, h2, h3, h4⟩ := h
      refine ⟨a, b, by rw [h4], h1, h2, ?_⟩
      rw [← h3]
      simp [digitVal]
  · rintro ⟨a, b, rfl, ha, hb, rfl⟩
    unfold IsDigitChar at ha hb
    simp [GoTime.getnum, GoTime.isDigit, GoTime.digitAt, digitVal, ha, hb]

theorem getnum_free_iff (s : List Char) (n : Int) (r : List Char) :
    GoTime.getnum s false = some (n, r) ↔
      (∃ a b : Char, s = a :: b :: r ∧ IsDigitChar a ∧ IsDigitChar b ∧
        n = ((digitVal a * 10 + digitVal b : Nat) : Int)) ∨
      (∃ a : Char, s = a :: r ∧ IsDigitChar a ∧ (∀ b t, r = b :: t → ¬ IsDigitChar b) ∧
        n = ((digitVal a : Nat) : Int)) := by
  constructor
  · intro h
    rcases s with _ | ⟨a, _ | ⟨b, rest⟩⟩
    · simp [GoTime.getnum, GoTime.isDigit] at h
    · simp only [GoTime.getnum, GoTime.isDigit, GoTime.digitAt] at h
      simp at h
      obtain ⟨h1, h2, h3⟩ := h
      refine Or.inr ⟨a, by rw [h3], h1, ?_, ?_⟩
      · intro b t hb
        rw [h3] at hb
        cases hb
      · rw [← h2]
        simp [digitVal]
    · by_cases hb : IsDigitChar b
      · have hb2 := hb
        unfold IsDigitChar at hb2
        simp only [GoTime.getnum, GoTime.isDigit, GoTime.digitAt] at h
        simp [hb2] at h
        obtain ⟨h1, h3, h4⟩ := h
        refine Or.inl ⟨a, b, by rw [h4], h1, hb, ?_⟩
        rw [← h3]
        simp only [digitVal]
        omega
      · have hb2 := hb
        unfold IsDigitChar at hb2
        simp only [GoTime.getnum, GoTime.isDigit, GoTime.digitAt] at h
        simp at h
        have hlt : b.toNat < 48 ∨ 57 < b.toNat := by omega
        rw [if_pos hlt] at h
        simp at h
        obtain ⟨h1, h3, h4⟩ := h
        refine Or.inr ⟨a, by rw [h4], h1, ?_, ?_⟩
        · intro b2 t hb3
          rw [← h4] at hb3
          cases hb3
          exact hb
        · rw [← h3]
          simp [digitVal]
  · rintro (⟨a, b, rfl, ha, hb, rfl⟩ | ⟨a, rfl, ha, hr, rfl⟩)
    · unfold IsDigitChar at ha hb
      simp [GoTime.getnum, GoTime.isDigit, GoTime.digitAt, digitVal, ha, hb]
    · rcases r with _ | ⟨b, t⟩
      · unfold IsDigitChar at ha
        simp [GoTime.getnum, GoTime.isDigit, GoTime.digitAt, digitVal, ha]
      · have hb := hr b t rfl
        unfold IsDigitChar at ha hb
        simp [GoTime.getnum, GoTime.isDigit, GoTime.digitAt, digitVal, ha, hb]

theorem skip_one_iff (l : List Char) (p : Char) (r : List Char) :
    GoTime.skip l [p] = some r ↔ l = p :: r := by
  rcases l with _ | ⟨v, t⟩
  · simp [GoTime.skip]
  · by_cases hv : v = p
    · simp [GoTime.skip, hv]
    · simp [GoTime.skip, hv]

theorem parseStd_year_iff (value : List Char) (f f' : GoTime.Fields) (r : List Char) :
    GoTime.parseStd .stdLongYear value f = some (f', r) ↔
      ∃ a b c d : Char, value = a :: b :: c :: d :: r ∧
        IsDigitChar a ∧ IsDigitChar b ∧ IsDigitChar c ∧ IsDigitChar d ∧
        f' = { f with year :=
          ((digitVal a * 1000 + digitVal b * 100 + digitVal c * 10 + digitVal d : Nat) : Int) } := by
  constructor
  · intro h
    rcases value with _ | ⟨a, _ | ⟨b, _ | ⟨c, _ | ⟨d, rest⟩⟩⟩⟩
    · simp [GoTime.parseStd] at h
    · simp [GoTime.parseStd] at h
    · simp [GoTime.parseStd] at h
    · simp [GoTime.parseStd] at h
    · simp only [GoTime.parseStd, GoTime.atoi4, GoTime.isDigit, GoTime.digitAt] at h
      simp at h
      obtain ⟨ha, h⟩ := h
      split_ifs at h with hall
      · simp at h
        obtain ⟨h1, h2⟩ := h
        obtain ⟨⟨⟨_, hb⟩, hc⟩, hd⟩ := hall
        refine ⟨a, b, c, d, by rw [h2], ha, hb, hc, hd, ?_⟩
        rw [← h1]
        simp [digitVal]
  · rintro ⟨a, b, c, d, rfl, ha, hb, hc, hd, rfl⟩
    unfold IsDigitChar at ha hb hc hd
    simp [GoTime.parseStd, GoTime.atoi4, GoTime.isDigit, GoTime.digitAt, digitVal, ha, hb, hc, hd]

theorem parseStd_day_iff (value : List Char) (f f' : GoTime.Fields) (r : List Char) :
    GoTime.parseStd .stdZeroDay value f = some (f', r) ↔
      ∃ a b : Char, value = a :: b :: r ∧ IsDigitChar a ∧ IsDigitChar b ∧
        f' = { f with day := ((num2 a b : Nat) : Int) } := by
  unfold GoTime.parseStd
  constructor
  · intro h
    cases hg : GoTime.getnum value true with
    | none => simp [hg] at h
    | some p =>
      obtain ⟨n, r1⟩ := p
      simp only [hg, Option.some.injEq, Prod.mk.injEq] at h
      obtain ⟨a, b, hv, ha, hb, hn⟩ := (getnum_fixed_iff value n r1).mp hg
      exact ⟨a, b, by rw [hv, h.2], ha, hb, by rw [← h.1, hn]; rfl⟩
  · rintro ⟨a, b, rfl, ha, hb, rfl⟩
    have hg := (getnum_fixed_iff (a :: b :: r) _ r).mpr ⟨a, b, rfl, ha, hb, rfl⟩
    simp only [hg]
    rfl

theorem parseStd_month_iff (value : List Char) (f f' : GoTime.Fields) (r : List Char) :
    GoTime.parseStd .stdZeroMonth value f = some (f', r) ↔
      ∃ a b : Char, value = a :: b :: r ∧ IsDigitChar a ∧ IsDigitChar b ∧
        1 ≤ num2 a b ∧ num2 a b ≤ 12 ∧ f' = { f with month := ((num2 a b : Nat) : Int) } := by
  unfold GoTime.parseStd
  constructor
  · intro h
    cases hg : GoTime.getnum value true with
    | none => simp [hg] at h
    | some p =>
      obtain ⟨n, r1⟩ := p
      simp only [hg] at h
      obtain ⟨a, b, hv, ha, hb, hn⟩ := (getnum_fixed_iff value n r1).mp hg
      split_ifs at h with hr
      simp only [Option.some.injEq, Prod.mk.injEq] at h
      simp only [Bool.or_eq_true, decide_eq_true_eq, not_or, not_le, not_lt] at hr
      have hn2 : n = ((num2 a b : Nat) : Int) := hn
      refine ⟨a, b, by rw [hv, h.2], ha, hb, by omega, by omega, by rw [← h.1, hn]; rfl⟩
  · rintro ⟨a, b, rfl, ha, hb, h1, h12, rfl⟩
    have hg := (getnum_fixed_iff (a :: b :: r) _ r).mpr ⟨a, b, rfl, ha, hb, rfl⟩
    simp only [hg]
    have hr : ¬ ((decide ((((digitVal a * 10 + digitVal b : Nat) : Int)) ≤ 0) ||
        decide (12 < (((digitVal a * 10 + digitVal b : Nat) : Int)))) = true) := by
      unfold num2 at h1 h12
      simp only [Bool.or_eq_true, decide_eq_true_eq, not_or, not_le, not_lt]
      omega
    rw [if_neg hr]
    rfl

theorem parseChunks_date_iff (l : List Char) (f' : GoTime.Fields) (r : List Char) :
    GoTime.parseChunks GoTime.dateLayout l {} = some (f', r) ↔
      ∃ a b c d e f g h : Char, l = a :: b :: '/' :: c :: d :: '/' :: e :: f :: g :: h :: r ∧
        IsDigitChar a ∧ IsDigitChar b ∧ IsDigitChar c ∧ IsDigitChar d ∧
        IsDigitChar e ∧ IsDigitChar f ∧ IsDigitChar g ∧ IsDigitChar h ∧
        1 ≤ num2 c d ∧ num2 c d ≤ 12 ∧
        f' = { year := ((num4 e f g h : Nat) : Int), month := ((num2 c d : Nat) : Int),
               day := ((num2 a b : Nat) : Int) } := by
  simp only [GoTime.dateLayout, GoTime.parseChunks]
  constructor
  · intro hv
    simp only [GoTime.skip] at hv
    cases h1 : GoTime.parseStd .stdZeroDay l {} with
    | none => simp [h1] at hv
    | some p1 =>
      obtain ⟨f1, r1⟩ := p1
      simp only [h1] at hv
      cases h2 : GoTime.skip r1 ['/'] with
      | none => simp [h2] at hv
      | some r2 =>
        simp only [h2] at hv
        cases h3 : GoTime.parseStd .stdZeroMonth r2 f1 with
        | none => simp [h3] at hv
        | some p3 =>
          obtain ⟨f3, r3⟩ := p3
          simp only [h3] at hv
          cases h4 : GoTime.skip r3 ['/'] with
          | none => simp [h4] at hv
          | some r4 =>
            simp only [h4] at hv
            cases h5 : GoTime.parseStd .stdLongYear r4 f3 with
            | none => simp [h5] at hv
            | some p5 =>
              obtain ⟨f5, r5⟩ := p5
              simp only [h5, Option.some.injEq, Prod.mk.injEq] at hv
              obtain ⟨a, b, e1, ha, hb, ef1⟩ := (parseStd_day_iff _ _ _ _).mp h1
              have e2 := (skip_one_iff _ _ _).mp h2
              obtain ⟨c, d, e3, hc, hd, hm1, hm12, ef3⟩ := (parseStd_month_iff _ _ _ _).mp h3
              have e4 := (skip_one_iff _ _ _).mp h4
              obtain ⟨e, f, g, h, e5, he, hf, hg, hh, ef5⟩ := (parseStd_year_iff _ _ _ _).mp h5
              refine ⟨a, b, c, d, e, f, g, h, ?_, ha, hb, hc, hd, he, hf, hg, hh, hm1, hm12, ?_⟩
              · rw [e1, e2, e3, e4, e5, hv.2]
              · rw [← hv.1, ef5, ef3, ef1]
                rfl
  · rintro ⟨a, b, c, d, e, f, g, h, rfl, ha, hb, hc, hd, he, hf, hg, hh, hm1, hm12, rfl⟩
    have h1 := (parseStd_day_iff (a :: b :: '/' :: c :: d :: '/' :: e :: f :: g :: h :: r) {} _ _).mpr
      ⟨a, b, rfl, ha, hb, rfl⟩
    simp only [GoTime.skip, h1, ne_eq, not_true_eq_false, ite_false, if_false]
    have h3 := (parseStd_month_iff (c :: d :: '/' :: e :: f :: g :: h :: r)
      { day := ((num2 a b : Nat) : Int) } _ _).mpr ⟨c, d, rfl, hc, hd, hm1, hm12, rfl⟩
    simp only [GoTime.skip, h3, ne_eq, not_true_eq_false, ite_false, if_false]
    have h5 := (parseStd_year_iff (e :: f :: g :: h :: r)
      { day := ((num2 a b : Nat) : Int), month := ((num2 c d : Nat) : Int) } _ _).mpr
      ⟨e, f, g, h, rfl, he, hf, hg, hh, rfl⟩
    simp only [h5]
    rfl

theorem daysIn_eq_monthLength (m y : Nat) (h1 : 1 ≤ m) (h12 : m ≤ 12) :
    GoTime.daysIn (m : Int) (y : Int) = ((monthLength y m : Nat) : Int) := by
  have hleap : GoTime.isLeap (y : Int) = decide (leapYear y) := by
    unfold GoTime.isLeap leapYear
    rw [Bool.eq_iff_iff]
    simp only [Bool.and_eq_true, Bool.or_eq_true, beq_iff_eq, bne_iff_ne, decide_eq_true_eq]
    omega
  unfold GoTime.daysIn monthLength
  rw [hleap]
  interval_cases m <;> simp [GoTime.daysBefore]

theorem isDigitChar_digitChar (k : Nat) (hk : k ≤ 9) : IsDigitChar (digitChar k) := by
  unfold IsDigitChar
  rw [digitChar_toNat k hk]
  omega

theorem digitVal_digitChar (k : Nat) (hk : k ≤ 9) : digitVal (digitChar k) = k := by
  unfold digitVal
  rw [digitChar_toNat k hk]
  omega

theorem digitVal_le (c : Char) (h : IsDigitChar c) : digitVal c ≤ 9 := by
  unfold IsDigitChar at h
  unfold digitVal
  omega

theorem digitChar_digitVal (c : Char) (h : IsDigitChar c) : digitChar (digitVal c) = c :=
  digitChar_val c h.1

theorem twoDigits_num2 (a b : Char) (ha : IsDigitChar a) (hb : IsDigitChar b) :
    twoDigits (num2 a b) = [a, b] := by
  have h1 := digitVal_le a ha
  have h2 := digitVal_le b hb
  unfold twoDigits num2
  have e1 : (digitVal a * 10 + digitVal b) / 10 = digitVal a := by omega
  have e2 : (digitVal a * 10 + digitVal b) % 10 = digitVal b := by omega
  rw [e1, e2, digitChar_digitVal a ha, digitChar_digitVal b hb]

theorem fourDigits_num4 (a b c d : Char) (ha : IsDigitChar a) (hb : IsDigitChar b)
    (hc : IsDigitChar c) (hd : IsDigitChar d) : fourDigits (num4 a b c d) = [a, b, c, d] := by
  have h1 := digitVal_le a ha
  have h2 := digitVal_le b hb
  have h3 := digitVal_le c hc
  have h4 := digitVal_le d hd
  unfold fourDigits num4
  have e1 : (digitVal a * 1000 + digitVal b * 100 + digitVal c * 10 + digitVal d) / 1000
      = digitVal a := by omega
  have e2 : (digitVal a * 1000 + digitVal b * 100 + digitVal c * 10 + digitVal d) / 100 % 10
      = digitVal b := by omega
  have e3 : (digitVal a * 1000 + digitVal b * 100 + digitVal c * 10 + digitVal d) / 10 % 10
      = digitVal c := by omega
  have e4 : (digitVal a * 1000 + digitVal b * 100 + digitVal c * 10 + digitVal d) % 10
      = digitVal d := by omega
  rw [e1, e2, e3, e4, digitChar_digitVal a ha, digitChar_digitVal b hb, digitChar_digitVal c hc,
    digitChar_digitVal d hd]

theorem num2_twoDigits (n : Nat) (hn : n ≤ 99) :
    ∃ a b : Char, twoDigits n = [a, b] ∧ IsDigitChar a ∧ IsDigitChar b ∧ num2 a b = n := by
  have h1 : n / 10 ≤ 9 := by omega
  have h2 : n % 10 ≤ 9 := by omega
  refine ⟨digitChar (n / 10), digitChar (n % 10), rfl, isDigitChar_digitChar _ h1,
    isDigitChar_digitChar _ h2, ?_⟩
  unfold num2
  rw [digitVal_digitChar _ h1, digitVal_digitChar _ h2]
  omega

theorem num4_fourDigits (n : Nat) (hn : n ≤ 9999) :
    ∃ a b c d : Char, fourDigits n = [a, b, c, d] ∧ IsDigitChar a ∧ IsDigitChar b ∧
      IsDigitChar c ∧ IsDigitChar d ∧ num4 a b c d = n := by
  have h1 : n / 1000 ≤ 9 := by omega
  have h2 : n / 100 % 10 ≤ 9 := by omega
  have h3 : n / 10 % 10 ≤ 9 := by omega
  have h4 : n % 10 ≤ 9 := by omega
  refine ⟨digitChar (n / 1000), digitChar (n / 100 % 10), digitChar (n / 10 % 10),
    digitChar (n % 10), rfl, isDigitChar_digitChar _ h1, isDigitChar_digitChar _ h2,
    isDigitChar_digitChar _ h3, isDigitChar_digitChar _ h4, ?_⟩
  unfold num4
  rw [digitVal_digitChar _ h1, digitVal_digitChar _ h2, digitVal_digitChar _ h3,
    digitVal_digitChar _ h4]
  omega

theorem monthLength_le (y m : Nat) : monthLength y m ≤ 31 := by
  unfold monthLength
  split_ifs <;> omega

theorem isValidDate_iff_shape (s : String) :
    isValidDate s = true ↔
      ∃ a b c d e f g h : Char, s.toList = [a, b, '/', c, d, '/', e, f, g, h] ∧
        IsDigitChar a ∧ IsDigitChar b ∧ IsDigitChar c ∧ IsDigitChar d ∧
        IsDigitChar e ∧ IsDigitChar f ∧ IsDigitChar g ∧ IsDigitChar h ∧
        1 ≤ num2 c d ∧ num2 c d ≤ 12 ∧ 1 ≤ num2 a b ∧
        num2 a b ≤ monthLength (num4 e f g h) (num2 c d) := by
  unfold isValidDate GoTime.Parse
  constructor
  · intro hv
    cases hp : GoTime.parseChunks GoTime.dateLayout s.toList {} with
    | none =>
      rw [hp] at hv
      simp at hv
    | some p =>
      obtain ⟨f', r⟩ := p
      obtain ⟨a, b, c, d, e, f, g, h, hl, ha, hb, hc, hd, he, hf, hg, hh, hm1, hm12, hf'⟩ :=
        (parseChunks_date_iff _ _ _).mp hp
      rw [hp] at hv
      subst hf'
      have hneg : ¬ (((num2 c d : Nat) : Int) < 0) := by omega
      have hneg2 : ¬ (((num2 a b : Nat) : Int) < 0) := by omega
      simp only [if_neg hneg, if_neg hneg2, daysIn_eq_monthLength _ _ hm1 hm12] at hv
      by_cases hr : r = []
      · subst hr
        refine ⟨a, b, c, d, e, f, g, h, hl, ha, hb, hc, hd, he, hf, hg, hh, hm1, hm12, ?_⟩
        by_cases hday : 1 ≤ num2 a b ∧ num2 a b ≤ monthLength (num4 e f g h) (num2 c d)
        · exact hday
        · exfalso
          have hr : (decide (((num2 a b : Nat) : Int) < 1) ||
              decide (((num2 a b : Nat) : Int) >
                ((monthLength (num4 e f g h) (num2 c d) : Nat) : Int))) = true := by
            simp only [Bool.or_eq_true, decide_eq_true_eq]
            omega
          rw [if_pos hr] at hv
          simp at hv
      · exfalso
        have hlen : (r.length != 0) = true := by
          simp only [bne_iff_ne, ne_eq, List.length_eq_zero]
          exact hr
        rw [if_pos hlen] at hv
        simp at hv
  · rintro ⟨a, b, c, d, e, f, g, h, hl, ha, hb, hc, hd, he, hf, hg, hh, hm1, hm12, hd1, hdm⟩
    have hp := (parseChunks_date_iff s.toList _ []).mpr
      ⟨a, b, c, d, e, f, g, h, hl, ha, hb, hc, hd, he, hf, hg, hh, hm1, hm12, rfl⟩
    rw [hp]
    have hneg : ¬ (((num2 c d : Nat) : Int) < 0) := by omega
    have hneg2 : ¬ (((num2 a b : Nat) : Int) < 0) := by omega
    simp only [List.length_nil, bne_self_eq_false, Bool.false_eq_true, if_false, if_neg hneg,
      if_neg hneg2, daysIn_eq_monthLength _ _ hm1 hm12]
    have hr : ¬ ((decide (((num2 a b : Nat) : Int) < 1) ||
        decide (((num2 a b : Nat) : Int) > ((monthLength (num4 e f g h) (num2 c d) : Nat) : Int)))
        = true) := by
      simp only [Bool.or_eq_true, decide_eq_true_eq, not_or, not_lt]
      omega
    rw [if_neg hr]
    rfl

theorem num4_le (a b c d : Char) (ha : IsDigitChar a) (hb : IsDigitChar b)
    (hc : IsDigitChar c) (hd : IsDigitChar d) : num4 a b c d ≤ 9999 := by
  have h1 := digitVal_le a ha
  have h2 := digitVal_le b hb
  have h3 := digitVal_le c hc
  have h4 := digitVal_le d hd
  unfold num4
  omega

/-- C1: `isValidDate` accepts exactly the strings that write a real calendar
date as two-digit day, `/`, two-digit month, `/`, four-digit year with nothing
before or after (month 01 to 12, day from 01 to the length of the month in that
year, leap years included); in particular it rejects `31-12-2020`,
`2020/12/31` and `abc`. -/
theorem isValidDate_iff_calendar_date :
    (∀ s : String, isValidDate s = true ↔ IsCalendarDate s) ∧
      isValidDate "31-12-2020" = false ∧ isValidDate "2020/12/31" = false ∧
      isValidDate "abc" = false := by
  refine ⟨fun s => ?_, by decide, by decide, by decide⟩
  rw [isValidDate_iff_shape]
  unfold IsCalendarDate
  constructor
  · rintro ⟨a, b, c, d, e, f, g, h, hl, ha, hb, hc, hd, he, hf, hg, hh, hm1, hm12, hd1, hdm⟩
    refine ⟨num2 a b, num2 c d, num4 e f g h, num4_le e f g h he hf hg hh, hm1, hm12, hd1, hdm, ?_⟩
    rw [twoDigits_num2 a b ha hb, twoDigits_num2 c d hc hd, fourDigits_num4 e f g h he hf hg hh, hl]
    rfl
  · rintro ⟨d, m, y, hy, hm1, hm12, hd1, hdm, hl⟩
    have hd99 : d ≤ 99 := by
      have := monthLength_le y m
      omega
    obtain ⟨a, b, e1, ha, hb, n1⟩ := num2_twoDigits d hd99
    obtain ⟨c, d', e2, hc, hd', n2⟩ := num2_twoDigits m (by omega)
    obtain ⟨e, f, g, h, e3, he, hf, hg, hh, n3⟩ := num4_fourDigits y hy
    refine ⟨a, b, c, d', e, f, g, h, ?_, ha, hb, hc, hd', he, hf, hg, hh, ?_, ?_, ?_, ?_⟩
    · rw [hl, e1, e2, e3]
      rfl
    · rw [n2]; exact hm1
    · rw [n2]; exact hm12
    · rw [n1]; exact hd1
    · rw [n1, n2, n3]; exact hdm

theorem parseStd_hour_iff (value : List Char) (f f' : GoTime.Fields) (r : List Char) :
    GoTime.parseStd .stdHour value f = some (f', r) ↔
      (∃ a b : Char, value = a :: b :: r ∧ IsDigitChar a ∧ IsDigitChar b ∧ num2 a b ≤ 23 ∧
        f' = { f with hour := ((num2 a b : Nat) : Int) }) ∨
      (∃ a : Char, value = a :: r ∧ IsDigitChar a ∧ (∀ b t, r = b :: t → ¬ IsDigitChar b) ∧
        f' = { f with hour := ((digitVal a : Nat) : Int) }) := by
  unfold GoTime.parseStd
  constructor
  · intro h
    cases hg : GoTime.getnum value false with
    | none => simp [hg] at h
    | some p =>
      obtain ⟨n, r1⟩ := p
      simp only [hg] at h
      split_ifs at h with hr
      simp only [Option.some.injEq, Prod.mk.injEq] at h
      simp only [Bool.or_eq_true, decide_eq_true_eq, not_or, not_le, not_lt] at hr
      rcases (getnum_free_iff value n r1).mp hg with ⟨a, b, hv, ha, hb, hn⟩ | ⟨a, hv, ha, hnd, hn⟩
      · have hn2 : n = ((num2 a b : Nat) : Int) := hn
        exact Or.inl ⟨a, b, by rw [hv, h.2], ha, hb, by omega, by rw [← h.1, hn]; rfl⟩
      · refine Or.inr ⟨a, by rw [hv, h.2], ha, ?_, by rw [← h.1, hn]⟩
        rw [← h.2]
        exact hnd
  · rintro (⟨a, b, rfl, ha, hb, h23, rfl⟩ | ⟨a, rfl, ha, hnd, rfl⟩)
    · have hg := (getnum_free_iff (a :: b :: r) _ r).mpr (Or.inl ⟨a, b, rfl, ha, hb, rfl⟩)
      simp only [hg]
      have hr : ¬ ((decide ((((digitVal a * 10 + digitVal b : Nat) : Int)) < 0) ||
          decide (24 ≤ (((digitVal a * 10 + digitVal b : Nat) : Int)))) = true) := by
        unfold num2 at h23
        simp only [Bool.or_eq_true, decide_eq_true_eq, not_or, not_le, not_lt]
        omega
      rw [if_neg hr]
      rfl
    · have hg := (getnum_free_iff (a :: r) _ r).mpr (Or.inr ⟨a, rfl, ha, hnd, rfl⟩)
      simp only [hg]
      have h9 := digitVal_le a ha
      have hr : ¬ ((decide ((((digitVal a : Nat) : Int)) < 0) ||
          decide (24 ≤ (((digitVal a : Nat) : Int)))) = true) := by
        simp only [Bool.or_eq_true, decide_eq_true_eq, not_or, not_le, not_lt]
        omega
      rw [if_neg hr]

theorem parseStd_minute_iff (value : List Char) (f f' : GoTime.Fields) (r : List Char) :
    GoTime.parseStd .stdZeroMinute value f = some (f', r) ↔
      ∃ a b : Char, value = a :: b :: r ∧ IsDigitChar a ∧ IsDigitChar b ∧
        num2 a b ≤ 59 ∧ f' = { f with min := ((num2 a b : Nat) : Int) } := by
  unfold GoTime.parseStd
  constructor
  · intro h
    cases hg : GoTime.getnum value true with
    | none => simp [hg] at h
    | some p =>
      obtain ⟨n, r1⟩ := p
      simp only [hg] at h
      obtain ⟨a, b, hv, ha, hb, hn⟩ := (getnum_fixed_iff value n r1).mp hg
      split_ifs at h with hr
      simp only [Option.some.injEq, Prod.mk.injEq] at h
      simp only [Bool.or_eq_true, decide_eq_true_eq, not_or, not_le, not_lt] at hr
      have hn2 : n = ((num2 a b : Nat) : Int) := hn
      refine ⟨a, b, by rw [hv, h.2], ha, hb, by omega, by rw [← h.1, hn]; rfl⟩
  · rintro ⟨a, b, rfl, ha, hb, h59, rfl⟩
    have hg := (getnum_fixed_iff (a :: b :: r) _ r).mpr ⟨a, b, rfl, ha, hb, rfl⟩
    simp only [hg]
    have hr : ¬ ((decide ((((digitVal a * 10 + digitVal b : Nat) : Int)) < 0) ||
        decide (60 ≤ (((digitVal a * 10 + digitVal b : Nat) : Int)))) = true) := by
      unfold num2 at h59
      simp only [Bool.or_eq_true, decide_eq_true_eq, not_or, not_le, not_lt]
      omega
    rw [if_neg hr]
    rfl

theorem colon_not_digit : ¬ IsDigitChar ':' := by decide

theorem parseChunks_time_iff (l : List Char) (f' : GoTime.Fields) (r : List Char) :
    GoTime.parseChunks GoTime.timeLayout l {} = some (f', r) ↔
      (∃ a b c d : Char, l = a :: b :: ':' :: c :: d :: r ∧
        IsDigitChar a ∧ IsDigitChar b ∧ IsDigitChar c ∧ IsDigitChar d ∧
        num2 a b ≤ 23 ∧ num2 c d ≤ 59 ∧
        f' = { hour := ((num2 a b : Nat) : Int), min := ((num2 c d : Nat) : Int) }) ∨
      (∃ a c d : Char, l = a :: ':' :: c :: d :: r ∧
        IsDigitChar a ∧ IsDigitChar c ∧ IsDigitChar d ∧ num2 c d ≤ 59 ∧
        f' = { hour := ((digitVal a : Nat) : Int), min := ((num2 c d : Nat) : Int) }) := by
  simp only [GoTime.timeLayout, GoTime.parseChunks]
  constructor
  · intro hv
    simp only [GoTime.skip] at hv
    cases h1 : GoTime.parseStd .stdHour l {} with
    | none => simp [h1] at hv
    | some p1 =>
      obtain ⟨f1, r1⟩ := p1
      simp only [h1] at hv
      cases h2 : GoTime.skip r1 [':'] with
      | none => simp [h2] at hv
      | some r2 =>
        simp only [h2] at hv
        cases h3 : GoTime.parseStd .stdZeroMinute r2 f1 with
        | none => simp [h3] at hv
        | some p3 =>
          obtain ⟨f3, r3⟩ := p3
          simp only [h3, Option.some.injEq, Prod.mk.injEq] at hv
          have e2 := (skip_one_iff _ _ _).mp h2
          obtain ⟨c, d, e3, hc, hd, hm, ef3⟩ := (parseStd_minute_iff _ _ _ _).mp h3
          rcases (parseStd_hour_iff _ _ _ _).mp h1 with
            ⟨a, b, e1, ha, hb, hh, ef1⟩ | ⟨a, e1, ha, _, ef1⟩
          · refine Or.inl ⟨a, b, c, d, ?_, ha, hb, hc, hd, hh, hm, ?_⟩
            · rw [e1, e2, e3, hv.2]
            · rw [← hv.1, ef3, ef1]
          · refine Or.inr ⟨a, c, d, ?_, ha, hc, hd, hm, ?_⟩
            · rw [e1, e2, e3, hv.2]
            · rw [← hv.1, ef3, ef1]
  · rintro (⟨a, b, c, d, rfl, ha, hb, hc, hd, hh, hm, rfl⟩ | ⟨a, c, d, rfl, ha, hc, hd, hm, rfl⟩)
    · have h1 := (parseStd_hour_iff (a :: b :: ':' :: c :: d :: r) {} _ _).mpr
        (Or.inl ⟨a, b, rfl, ha, hb, hh, rfl⟩)
      simp only [GoTime.skip, h1, ne_eq, not_true_eq_false, ite_false, if_false]
      have h3 := (parseStd_minute_iff (c :: d :: r)
        { hour := ((num2 a b : Nat) : Int) } _ _).mpr ⟨c, d, rfl, hc, hd, hm, rfl⟩
      simp only [h3]
    · have hnd : ∀ b t, ':' :: c :: d :: r = b :: t → ¬ IsDigitChar b := by
        intro b t hbt
        cases hbt
        exact colon_not_digit
      have h1 := (parseStd_hour_iff (a :: ':' :: c :: d :: r) {} _ _).mpr
        (Or.inr ⟨a, rfl, ha, hnd, rfl⟩)
      simp only [GoTime.skip, h1, ne_eq, not_true_eq_false, ite_false, if_false]
      have h3 := (parseStd_minute_iff (c :: d :: r)
        { hour := ((digitVal a : Nat) : Int) } _ _).mpr ⟨c, d, rfl, hc, hd, hm, rfl⟩
      simp only [h3]

theorem isValidTime_iff_parseChunks (s : String) :
    isValidTime s = true ↔
      ∃ f', GoTime.parseChunks GoTime.timeLayout s.toList {} = some (f', []) := by
  unfold isValidTime GoTime.Parse
  constructor
  · intro hv
    cases hp : GoTime.parseChunks GoTime.timeLayout s.toList {} with
    | none =>
      rw [hp] at hv
      simp at hv
    | some p =>
      obtain ⟨f', r⟩ := p
      rw [hp] at hv
      by_cases hr : r = []
      · subst hr
        exact ⟨f', rfl⟩
      · exfalso
        have hlen : (r.length != 0) = true := by
          simp only [bne_iff_ne, ne_eq, List.length_eq_zero]
          exact hr
        simp only [if_pos hlen] at hv
        simp at hv
  · rintro ⟨f', hp⟩
    rw [hp]
    rcases (parseChunks_time_iff _ _ _).mp hp with
      ⟨a, b, c, d, _, _, _, _, _, _, _, rfl⟩ | ⟨a, c, d, _, _, _, _, _, rfl⟩
    · rfl
    · rfl

/-- C2, counterexample: `9:05` has a one-digit hour, so it is not of the
two-digit form hh:mm, and `isValidTime` accepts it. -/
theorem isValidTime_accepts_one_digit_hour :
    isValidTime "9:05" = true ∧ ¬ IsTimeHHMM "9:05" := by
  refine ⟨by decide, ?_⟩
  rintro ⟨h, m, _, _, hl⟩
  have hlen := congrArg List.length hl
  simp [twoDigits] at hlen

/-- C2, amended: `isValidTime` accepts exactly the strings that write a 24-hour
time as hour, `:`, two-digit minute 00 to 59 with nothing before or after, the
hour 0 to 23 written with two digits or, below 10, with a single digit; in
particular it rejects `25:00`, `9:5` and `noon`. -/
theorem isValidTime_iff_hour_minute :
    (∀ s : String, isValidTime s = true ↔ IsTimeHMM s) ∧
      isValidTime "25:00" = false ∧ isValidTime "9:5" = false ∧ isValidTime "noon" = false := by
  refine ⟨fun s => ?_, by decide, by decide, by decide⟩
  rw [isValidTime_iff_parseChunks]
  unfold IsTimeHMM
  constructor
  · rintro ⟨f', hp⟩
    rcases (parseChunks_time_iff _ _ _).mp hp with
      ⟨a, b, c, d, hl, ha, hb, hc, hd, hh, hm, _⟩ | ⟨a, c, d, hl, ha, hc, hd, hm, _⟩
    · refine ⟨num2 a b, num2 c d, hh, hm, Or.inl ?_⟩
      rw [twoDigits_num2 a b ha hb, twoDigits_num2 c d hc hd, hl]
      rfl
    · have h9 := digitVal_le a ha
      refine ⟨digitVal a, num2 c d, by omega, hm, Or.inr ⟨h9, ?_⟩⟩
      rw [twoDigits_num2 c d hc hd, digitChar_digitVal a ha, hl]
  · rintro ⟨h, m, h23, h59, hl | ⟨h9, hl⟩⟩
    · obtain ⟨a, b, e1, ha, hb, n1⟩ := num2_twoDigits h (by omega)
      obtain ⟨c, d, e2, hc, hd, n2⟩ := num2_twoDigits m (by omega)
      refine ⟨_, (parseChunks_time_iff _ _ _).mpr
        (Or.inl ⟨a, b, c, d, ?_, ha, hb, hc, hd, by rw [n1]; exact h23, by rw [n2]; exact h59, rfl⟩)⟩
      rw [hl, e1, e2]
      rfl
    · obtain ⟨c, d, e2, hc, hd, n2⟩ := num2_twoDigits m (by omega)
      refine ⟨_, (parseChunks_time_iff _ _ _).mpr
        (Or.inr ⟨digitChar h, c, d, ?_, isDigitChar_digitChar h h9, hc, hd,
          by rw [n2]; exact h59, rfl⟩)⟩
      rw [hl, e2]

/-! ## Frame lemmas for the building blocks -/

theorem removeProfileButtons_frame (env : Env) (userID chatID : Int) (w : World) :
    (removeProfileButtons env userID chatID w).users = w.users ∧
    (removeProfileButtons env userID chatID w).userStates = w.userStates ∧
    (removeProfileButtons env userID chatID w).userMessageIDs = w.userMessageIDs ∧
    ∃ evs, (removeProfileButtons env userID chatID w).events = w.events ++ evs ∧
      saves evs = [] ∧ sends evs = [] := by
  unfold removeProfileButtons
  split
  · exact ⟨rfl, rfl, rfl, [], by simp, rfl, rfl⟩
  · split
    · exact ⟨rfl, rfl, rfl, [], by simp, rfl, rfl⟩
    · simp only [botRequest]
      split
      · split
        · exact ⟨rfl, rfl, rfl, _, rfl, rfl, rfl⟩
        · exact ⟨rfl, rfl, rfl, _, rfl, rfl, rfl⟩
      · exact ⟨rfl, rfl, rfl, _, rfl, rfl, rfl⟩

theorem saves_append (xs ys : List Event) : saves (xs ++ ys) = saves xs ++ saves ys := by
  induction xs with
  | nil => rfl
  | cons e es ih => cases e <;> simp [saves, ih]

theorem sends_append (xs ys : List Event) : sends (xs ++ ys) = sends xs ++ sends ys := by
  induction xs with
  | nil => rfl
  | cons e es ih => cases e <;> simp [sends, ih]

theorem transportCalls_append (xs ys : List Event) :
    transportCalls (xs ++ ys) = transportCalls xs ++ transportCalls ys := by
  induction xs with
  | nil => rfl
  | cons e es ih => cases e <;> simp [transportCalls, ih]

theorem ReadOnly.refl (w : World) : ReadOnly w w :=
  ⟨rfl, rfl, [], by simp, rfl⟩

theorem ReadOnly.trans {w w1 w2 : World} (h1 : ReadOnly w w1) (h2 : ReadOnly w1 w2) :
    ReadOnly w w2 := by
  obtain ⟨a1, b1, e1, c1, d1⟩ := h1
  obtain ⟨a2, b2, e2, c2, d2⟩ := h2
  refine ⟨a2.trans a1, b2.trans b1, e1 ++ e2, ?_, ?_⟩
  · rw [c2, c1, List.append_assoc]
  · rw [saves_append, d1, d2]
    rfl

theorem ReadOnly.logPrintf {w w1 : World} (line : String) (h : ReadOnly w w1) :
    ReadOnly w (logPrintf line w1) :=
  h.trans ⟨rfl, rfl, [], by simp [TgBot.logPrintf], rfl⟩

theorem ReadOnly.emit_GetUser {w w1 : World} (userID : Int) (h : ReadOnly w w1) :
    ReadOnly w (w1.emit (.GetUser userID)) :=
  h.trans ⟨rfl, rfl, [.GetUser userID], rfl, rfl⟩

theorem ReadOnly.emit_Send {w w1 : World} (c : Chattable) (h : ReadOnly w w1) :
    ReadOnly w (w1.emit (.Send c)) :=
  h.trans ⟨rfl, rfl, [.Send c], rfl, rfl⟩

theorem ReadOnly.emit_Request {w w1 : World} (c : Chattable) (h : ReadOnly w w1) :
    ReadOnly w (w1.emit (.Request c)) :=
  h.trans ⟨rfl, rfl, [.Request c], rfl, rfl⟩

theorem ReadOnly.emit_Now {w w1 : World} (h : ReadOnly w w1) :
    ReadOnly w (w1.emit .Now) :=
  h.trans ⟨rfl, rfl, [.Now], rfl, rfl⟩

theorem ReadOnly.trackUser {w w1 : World} (userID : Int) (h : ReadOnly w w1) :
    ReadOnly w (trackUser userID w1) := by
  refine h.trans ?_
  unfold TgBot.trackUser
  split
  · exact ReadOnly.refl _
  · exact ⟨rfl, rfl, [], by simp, rfl⟩

theorem ReadOnly.setProfileMessageID {w w1 : World} (userID id : Int) (h : ReadOnly w w1) :
    ReadOnly w (setProfileMessageID userID id w1) :=
  h.trans ⟨rfl, rfl, [], by simp [TgBot.setProfileMessageID], rfl⟩

theorem ReadOnly.setPromptMessageID {w w1 : World} (userID id : Int) (h : ReadOnly w w1) :
    ReadOnly w (setPromptMessageID userID id w1) :=
  h.trans ⟨rfl, rfl, [], by simp [TgBot.setPromptMessageID], rfl⟩

theorem ReadOnly.setInvoiceMessageID {w w1 : World} (userID id : Int) (h : ReadOnly w w1) :
    ReadOnly w (setInvoiceMessageID userID id w1) :=
  h.trans ⟨rfl, rfl, [], by simp [TgBot.setInvoiceMessageID], rfl⟩

theorem ReadOnly.removeProfileButtons {w w1 : World} (env : Env) (userID chatID : Int)
    (h : ReadOnly w w1) : ReadOnly w (removeProfileButtons env userID chatID w1) := by
  obtain ⟨a, b, _, evs, c, d, _⟩ := removeProfileButtons_frame env userID chatID w1
  exact h.trans ⟨a, b, evs, c, d⟩

theorem GetUser_world (env : Env) (userID : Int) (w : World) :
    (GetUser env userID w).1 = w.emit (.GetUser userID) := by
  unfold GetUser
  split
  · rfl
  · split <;> rfl

theorem ReadOnly.handleProfile {w w1 : World} (env : Env) (userID chatID : Int) (sendNew : Bool)
    (h : ReadOnly w w1) : ReadOnly w (handleProfile env userID chatID sendNew w1) := by
  have hg := GetUser_world env userID w1
  unfold TgBot.handleProfile
  rcases hr : GetUser env userID w1 with ⟨w2, r⟩
  rw [hr] at hg
  simp only at hg
  subst hg
  cases r with
  | error e =>
    simp only [botSend, logOnErr]
    split <;>
      repeat (first
        | exact h
        | with_reducible apply ReadOnly.logPrintf
        | with_reducible apply ReadOnly.emit_GetUser
        | with_reducible apply ReadOnly.emit_Send)
  | ok user =>
    cases hp : user.IsPremium <;>
    · simp only [hp, botSend, timeNow, if_true, if_false, Bool.false_eq_true]
      split <;> split <;>
        repeat (first
          | exact h
          | split
          | with_reducible apply ReadOnly.logPrintf
          | with_reducible apply ReadOnly.setProfileMessageID
          | with_reducible apply ReadOnly.trackUser
          | with_reducible apply ReadOnly.removeProfileButtons
          | with_reducible apply ReadOnly.emit_GetUser
          | with_reducible apply ReadOnly.emit_Send
          | with_reducible apply ReadOnly.emit_Now)

theorem ReadOnly.acknowledge {w w1 : World} (env : Env) (q : CallbackQuery)
    (h : ReadOnly w w1) : ReadOnly w (acknowledge env q w1) := by
  unfold TgBot.acknowledge
  simp only [botRequest, logOnErr]
  split <;>
    repeat (first
      | exact h
      | with_reducible apply ReadOnly.logPrintf
      | with_reducible apply ReadOnly.emit_Request)

theorem trackUser_users (userID : Int) (w : World) : (trackUser userID w).users = w.users := by
  unfold trackUser
  split <;> rfl

theorem trackUser_userStates (userID : Int) (w : World) :
    (trackUser userID w).userStates = w.userStates := by
  unfold trackUser
  split <;> rfl

theorem trackUser_events (userID : Int) (w : World) : (trackUser userID w).events = w.events := by
  unfold trackUser
  split <;> rfl

/-- C5: handling a callback with payload `cancel` leaves the user's state
`Idle` (the entry of the user is deleted and every other user's entry is as it
was), leaves the profile store identical and attempts no profile store write,
whatever the state before and whatever the collaborators answer. -/
theorem cancel_clears_state_only (env : Env) (id : String) (sender : TgUser) (msg : Message)
    (w : World) :
    GetState (handleCallbackQuery env
        { ID := id, From := sender, Message := msg, Data := "cancel" } w) sender.ID = .StateIdle ∧
    (handleCallbackQuery env
        { ID := id, From := sender, Message := msg, Data := "cancel" } w).userStates
      = Function.update w.userStates sender.ID none ∧
    (handleCallbackQuery env
        { ID := id, From := sender, Message := msg, Data := "cancel" } w).users = w.users ∧
    ∃ evs, (handleCallbackQuery env
        { ID := id, From := sender, Message := msg, Data := "cancel" } w).events = w.events ++ evs ∧
      saves evs = [] := by
  have hro : ReadOnly (ClearState sender.ID (trackUser sender.ID w))
      (handleCallbackQuery env { ID := id, From := sender, Message := msg, Data := "cancel" } w) := by
    unfold handleCallbackQuery
    simp only [String.reduceEq, if_false, if_true]
    exact ((ReadOnly.refl _).handleProfile env _ _ _).acknowledge env _
  obtain ⟨hu, hs, evs, he, hsv⟩ := hro
  have hs2 : (handleCallbackQuery env
      { ID := id, From := sender, Message := msg, Data := "cancel" } w).userStates
      = Function.update w.userStates sender.ID none := by
    rw [hs]
    simp only [ClearState, trackUser_userStates]
  refine ⟨?_, hs2, ?_, evs, ?_, hsv⟩
  · unfold GetState
    rw [hs2]
    simp
  · rw [hu]
    simp only [ClearState, trackUser_users]
  · rw [he]
    simp only [ClearState, trackUser_events]

/-- C4: in state EditingBirthDate (resp. EditingBirthTime), a text rejected by
`isValidDate` (resp. `isValidTime`) leaves the conversation states and the
profile store untouched, and the only call the handler makes is one
`bot.Send` of the error text with the keyboard holding the single cancel button:
no profile store write and no delete request. -/
theorem invalid_input_reprompts (env : Env) (m : Message) (w : World) (f : Field)
    (hstate : GetState w m.From.ID = f.state) (hvalid : f.valid m.Text = false) :
    (handleMessage env m w).userStates = w.userStates ∧
    (handleMessage env m w).users = w.users ∧
    (handleMessage env m w).events = w.events ++
      [.Send (.MessageConfig m.ChatID f.errorText
        (some [[{ Text := "Отменить", CallbackData := "cancel" }]]))] := by
  unfold handleMessage
  cases f with
  | Name => simp [Field.valid] at hvalid
  | BirthDate =>
    simp only [Field.valid] at hvalid
    simp only [hstate, Field.state, hvalid, botSend, logOnErr, Field.errorText]
    simp only [Bool.not_false, if_true]
    split <;>
      simp [logPrintf, World.emit, trackUser_users, trackUser_userStates, trackUser_events,
        cancelKeyboard, NewInlineKeyboardButtonData]
  | BirthTime =>
    simp only [Field.valid] at hvalid
    simp only [hstate, Field.state, hvalid, botSend, logOnErr, Field.errorText]
    simp only [Bool.not_false, if_true]
    split <;>
      simp [logPrintf, World.emit, trackUser_users, trackUser_userStates, trackUser_events,
        cancelKeyboard, NewInlineKeyboardButtonData]

/-- C4, witness: `alice`, editing the birth date, sends `31-12-2020`. -/
theorem invalid_input_reprompts_witness :
    GetState (aliceIn .StateEditingBirthDate) 7 = .StateEditingBirthDate ∧
    isValidDate "31-12-2020" = false ∧
    (handleMessage calmEnv (aliceSays "31-12-2020") (aliceIn .StateEditingBirthDate)).userStates
      = (aliceIn .StateEditingBirthDate).userStates ∧
    (handleMessage calmEnv (aliceSays "31-12-2020") (aliceIn .StateEditingBirthDate)).users
      = (aliceIn .StateEditingBirthDate).users ∧
    (handleMessage calmEnv (aliceSays "31-12-2020") (aliceIn .StateEditingBirthDate)).events
      = [.Send (.MessageConfig 70
          "Некорректная дата. Пожалуйста, введите дату в формате дд/мм/гггг:"
          (some [[{ Text := "Отменить", CallbackData := "cancel" }]]))] :=
  ⟨by decide, by decide,
    invalid_input_reprompts calmEnv (aliceSays "31-12-2020") (aliceIn .StateEditingBirthDate)
      .BirthDate (by decide) (by decide)⟩

theorem GetUser_ok (env : Env) (userID : Int) (w : World) (u : User)
    (hdb : env.readErr w.events.length = none) (hu : w.users userID = some u) :
    GetUser env userID w = (w.emit (.GetUser userID), .ok u) := by
  unfold GetUser
  rw [hdb, hu]

theorem SaveUser_ok (env : Env) (user : User) (w : World)
    (hdb : env.writeErr w.events.length = none) :
    SaveUser env user w =
      ({ w.emit (.SaveUser user) with users := Function.update w.users user.ID (some user) },
        none) := by
  unfold SaveUser
  rw [hdb]

theorem ReadOnly.logOnErr {α : Type} {w w1 : World} (r : Except String α) (line : String)
    (h : ReadOnly w w1) : ReadOnly w (logOnErr r line w1) := by
  unfold TgBot.logOnErr
  split
  · exact h.logPrintf _
  · exact h

theorem logOnErr_users {α : Type} (r : Except String α) (line : String) (w : World) :
    (logOnErr r line w).users = w.users := by
  unfold logOnErr
  split <;> rfl

theorem logOnErr_userStates {α : Type} (r : Except String α) (line : String) (w : World) :
    (logOnErr r line w).userStates = w.userStates := by
  unfold logOnErr
  split <;> rfl

theorem logOnErr_userMessageIDs {α : Type} (r : Except String α) (line : String) (w : World) :
    (logOnErr r line w).userMessageIDs = w.userMessageIDs := by
  unfold logOnErr
  split <;> rfl

theorem logOnErr_events {α : Type} (r : Except String α) (line : String) (w : World) :
    (logOnErr r line w).events = w.events := by
  unfold logOnErr
  split <;> rfl

theorem handleProfile_users (env : Env) (userID chatID : Int) (sendNew : Bool) (w : World) :
    (handleProfile env userID chatID sendNew w).users = w.users :=
  ((ReadOnly.refl w).handleProfile env userID chatID sendNew).1

theorem handleProfile_userStates (env : Env) (userID chatID : Int) (sendNew : Bool) (w : World) :
    (handleProfile env userID chatID sendNew w).userStates = w.userStates :=
  ((ReadOnly.refl w).handleProfile env userID chatID sendNew).2.1

theorem handleProfile_events (env : Env) (userID chatID : Int) (sendNew : Bool) (w : World) :
    (handleProfile env userID chatID sendNew w).events =
      w.events ++ (handleProfile env userID chatID sendNew w).events.drop w.events.length := by
  obtain ⟨_, _, evs, he, _⟩ := (ReadOnly.refl w).handleProfile env userID chatID sendNew
  rw [he]
  simp

theorem handleProfile_saves (env : Env) (userID chatID : Int) (sendNew : Bool) (w : World) :
    saves ((handleProfile env userID chatID sendNew w).events.drop w.events.length) = [] := by
  obtain ⟨_, _, evs, he, hs⟩ := (ReadOnly.refl w).handleProfile env userID chatID sendNew
  rw [he]
  simpa using hs

/-- C3: for a registered user in state EditingName, EditingBirthDate or
EditingBirthTime and a text that passes the validation of that field (any text
for the name), with a profile store that serves its calls, `handleMessage`
leaves the stored profile with that field equal to the text verbatim and every
other field (and every other record) unchanged, leaves the user's state
`Idle`, and issues a delete request for the user's input message. -/
theorem valid_input_updates_field (env : Env) (m : Message) (w : World) (u : User) (f : Field)
    (hstate : GetState w m.From.ID = f.state) (hvalid : f.valid m.Text = true)
    (hreg : w.users m.From.ID = some u) (hid : u.ID = m.From.ID) (hdb : env.storageOk) :
    (handleMessage env m w).users = Function.update w.users m.From.ID (some (f.set u m.Text)) ∧
    GetState (handleMessage env m w) m.From.ID = .StateIdle ∧
    ∃ evs, (handleMessage env m w).events = w.events ++ evs ∧
      Event.Request (.DeleteMessageConfig m.ChatID m.MessageID) ∈ evs := by
  have hg := GetUser_ok env m.From.ID (trackUser m.From.ID w) u (hdb _).1
    (by rw [trackUser_users]; exact hreg)
  unfold handleMessage
  cases f with
  | Name =>
    simp only [hstate, Field.state, hg]
    rw [SaveUser_ok env _ _ (hdb _).2]
    simp only [botRequest]
    refine ⟨?_, ?_, ?_⟩
    · simp only [handleProfile_users, ClearState, logOnErr_users, World.emit, trackUser_users, hid,
        Field.set]
    · unfold GetState
      simp only [handleProfile_userStates, ClearState, Function.update_same]
    · rw [handleProfile_events]
      simp only [ClearState, logOnErr_events, World.emit, trackUser_events, List.append_assoc]
      exact ⟨_, rfl, by simp⟩
  | BirthDate =>
    simp only [Field.valid] at hvalid
    simp only [hstate, Field.state, hg, hvalid, Bool.not_true, Bool.false_eq_true, if_false]
    rw [SaveUser_ok env _ _ (hdb _).2]
    simp only [botRequest]
    refine ⟨?_, ?_, ?_⟩
    · simp only [handleProfile_users, ClearState, logOnErr_users, World.emit, trackUser_users, hid,
        Field.set]
    · unfold GetState
      simp only [handleProfile_userStates, ClearState, Function.update_same]
    · rw [handleProfile_events]
      simp only [ClearState, logOnErr_events, World.emit, trackUser_events, List.append_assoc]
      exact ⟨_, rfl, by simp⟩
  | BirthTime =>
    simp only [Field.valid] at hvalid
    simp only [hstate, Field.state, hg, hvalid, Bool.not_true, Bool.false_eq_true, if_false]
    rw [SaveUser_ok env _ _ (hdb _).2]
    simp only [botRequest]
    refine ⟨?_, ?_, ?_⟩
    · simp only [handleProfile_users, ClearState, logOnErr_users, World.emit, trackUser_users, hid,
        Field.set]
    · unfold GetState
      simp only [handleProfile_userStates, ClearState, Function.update_same]
    · rw [handleProfile_events]
      simp only [ClearState, logOnErr_events, World.emit, trackUser_events, List.append_assoc]
      exact ⟨_, rfl, by simp⟩

/-- C3, witness: `alice`, editing the birth date, sends `15/06/1990`, which is stored verbatim. -/
theorem valid_input_updates_field_witness :
    GetState (aliceIn .StateEditingBirthDate) 7 = .StateEditingBirthDate ∧
    isValidDate "15/06/1990" = true ∧
    (aliceIn .StateEditingBirthDate).users 7 = some alice ∧
    calmEnv.storageOk ∧
    (handleMessage calmEnv (aliceSays "15/06/1990") (aliceIn .StateEditingBirthDate)).users
      = Function.update (aliceIn .StateEditingBirthDate).users 7
          (some { alice with BirthDate := "15/06/1990" }) ∧
    GetState (handleMessage calmEnv (aliceSays "15/06/1990") (aliceIn .StateEditingBirthDate)) 7
      = .StateIdle ∧
    ∃ evs, (handleMessage calmEnv (aliceSays "15/06/1990") (aliceIn .StateEditingBirthDate)).events
        = (aliceIn .StateEditingBirthDate).events ++ evs ∧
      Event.Request (.DeleteMessageConfig 70 42) ∈ evs :=
  ⟨by decide, by decide, rfl, fun _ => ⟨rfl, rfl⟩,
    valid_input_updates_field calmEnv (aliceSays "15/06/1990") (aliceIn .StateEditingBirthDate)
      alice .BirthDate (by decide) (by decide) rfl rfl (fun _ => ⟨rfl, rfl⟩)⟩

/-- C6, the failing inputs: for the payload `zodiac_dragon`, whose code is not
in the sign table, `handleCallbackQuery` returns without making any call, so
the callback query is never acknowledged; for `zodiac_aries` from a user with
no stored profile it returns after the failed lookup, again without an
acknowledgement.  An unrecognised payload outside the `zodiac_` family is
acknowledged. -/
theorem zodiac_returns_skip_acknowledgement (env : Env) (id : String) (sender : TgUser)
    (msg : Message) (w : World) :
    (handleCallbackQuery env
        { ID := id, From := sender, Message := msg, Data := "zodiac_dragon" } w).events
      = w.events ∧
    (handleCallbackQuery env
        { ID := id, From := sender, Message := msg, Data := "zodiac_aries" } emptyWorld).events
      = [.GetUser sender.ID] ∧
    (handleCallbackQuery env
        { ID := id, From := sender, Message := msg, Data := "dragon" } w).events
      = w.events ++ [.Request (.CallbackConfig id "")] := by
  have h1 : HasPrefix "zodiac_dragon" "zodiac_" = true := by decide
  have h2 : zodiacMap (TrimPrefix "zodiac_dragon" "zodiac_") = none := by decide
  have h3 : HasPrefix "zodiac_aries" "zodiac_" = true := by decide
  have h4 : zodiacMap (TrimPrefix "zodiac_aries" "zodiac_") = some "♈️ Овен" := by decide
  have h5 : HasPrefix "dragon" "zodiac_" = false := by decide
  refine ⟨?_, ?_, ?_⟩
  · unfold handleCallbackQuery
    simp only [String.reduceEq, if_false, h1, if_true, h2, logPrintf, trackUser_events]
  · unfold handleCallbackQuery
    simp only [String.reduceEq, if_false, h3, if_true, h4]
    have hg : ∀ W : World, W.users = emptyWorld.users →
        (GetUser env sender.ID W).2 = .error "user not found" ∨
        ∃ e, (GetUser env sender.ID W).2 = .error e := by
      intro W hW
      unfold GetUser
      split
      · exact Or.inr ⟨_, rfl⟩
      · rw [hW]
        exact Or.inl rfl
    have hw := GetUser_world env sender.ID (trackUser sender.ID emptyWorld)
    rcases hr : GetUser env sender.ID (trackUser sender.ID emptyWorld) with ⟨w2, r⟩
    rw [hr] at hw
    simp only at hw
    subst hw
    have hg2 := hg (trackUser sender.ID emptyWorld) (trackUser_users _ _)
    rw [hr] at hg2
    simp only at hg2
    rcases hg2 with hg2 | ⟨e, hg2⟩ <;>
    · subst hg2
      simp only [logPrintf, World.emit, trackUser_events]
      rfl
  · unfold handleCallbackQuery
    simp only [String.reduceEq, if_false, h5, Bool.false_eq_true, acknowledge, botRequest,
      logOnErr_events, World.emit, logPrintf, trackUser_events]

theorem GetUser_none (env : Env) (userID : Int) (w : World)
    (hdb : env.readErr w.events.length = none) (hu : w.users userID = none) :
    GetUser env userID w = (w.emit (.GetUser userID), .error "user not found") := by
  unfold GetUser
  rw [hdb, hu]

/-- C8, the behaviour on every input: `handleStart` reads the profile store once,
after the buttons of the tracked card were stripped.  When that read returns
the record of the sender, it attempts no write, leaves the store identical and
sends exactly one message, "already registered".  In every other case, the
sender having no record or the read failing for a sender who has one, it
attempts exactly one write, of the blank record carrying the sender's id, first
name, last name and username, and sends exactly one message, the welcome: a
served write stores the blank record in place of whatever the sender had, a
failed write leaves the store identical. -/
theorem handleStart_writes_unless_record_read (env : Env) (m : Message) (w : World) :
    (∀ u, w.users m.From.ID = some u →
      env.readErr (removeProfileButtons env m.From.ID m.ChatID w).events.length = none →
      (handleStart env m w).users = w.users ∧
      ∃ evs, (handleStart env m w).events = w.events ++ evs ∧
        saves evs = [] ∧
        sends evs = [.MessageConfig m.ChatID "Вы уже зарегистрированы." none]) ∧
    ((w.users m.From.ID = none ∨
        env.readErr (removeProfileButtons env m.From.ID m.ChatID w).events.length ≠ none) →
      (∃ evs, (handleStart env m w).events = w.events ++ evs ∧
        saves evs = [{ ID := m.From.ID, FirstName := m.From.FirstName,
                       LastName := m.From.LastName, UserName := m.From.UserName,
                       ZodiacSign := "", BirthDate := "", BirthTime := "",
                       IsPremium := false, PremiumExpiry := 0 }] ∧
        sends evs = [.MessageConfig m.ChatID "Добро пожаловать!" none]) ∧
      (env.writeErr ((removeProfileButtons env m.From.ID m.ChatID w).events.length + 1) = none →
        (handleStart env m w).users = Function.update w.users m.From.ID
          (some { ID := m.From.ID, FirstName := m.From.FirstName, LastName := m.From.LastName,
                  UserName := m.From.UserName, ZodiacSign := "", BirthDate := "", BirthTime := "",
                  IsPremium := false, PremiumExpiry := 0 })) ∧
      (env.writeErr ((removeProfileButtons env m.From.ID m.ChatID w).events.length + 1) ≠ none →
        (handleStart env m w).users = w.users)) := by
  obtain ⟨hu, _, _, evs0, he, hs0, hsend0⟩ := removeProfileButtons_frame env m.From.ID m.ChatID w
  unfold handleStart
  simp only
  generalize removeProfileButtons env m.From.ID m.ChatID w = W1 at hu he
  constructor
  · intro u hsome hread
    rw [GetUser_ok env _ W1 u hread (by rw [hu]; exact hsome)]
    simp only [botSend, logOnErr_users, logOnErr_events, World.emit, hu, he, List.append_assoc]
    refine ⟨trivial, _, rfl, ?_, ?_⟩
    · simp [saves_append, hs0, saves]
    · simp [sends_append, hsend0, sends]
  · intro hcase
    have hg : ∃ e, GetUser env m.From.ID W1 = (W1.emit (.GetUser m.From.ID), .error e) := by
      unfold GetUser
      cases hr : env.readErr W1.events.length with
      | some e => exact ⟨e, rfl⟩
      | none =>
        rcases hcase with hnone | hfail
        · rw [hu, hnone]
          exact ⟨_, rfl⟩
        · exact absurd hr hfail
    obtain ⟨e, hge⟩ := hg
    rw [hge]
    simp only
    have hpos : (W1.emit (.GetUser m.From.ID)).events.length = W1.events.length + 1 := by
      simp [World.emit]
    refine ⟨?_, ?_, ?_⟩
    · unfold SaveUser
      cases env.writeErr (W1.emit (.GetUser m.From.ID)).events.length with
      | some e2 =>
        simp only [botSend, logOnErr_events, World.emit, logPrintf, he, List.append_assoc]
        refine ⟨_, rfl, ?_, ?_⟩
        · simp [saves_append, hs0, saves]
        · simp [sends_append, hsend0, sends]
      | none =>
        simp only [botSend, logOnErr_events, World.emit, he, List.append_assoc]
        refine ⟨_, rfl, ?_, ?_⟩
        · simp [saves_append, hs0, saves]
        · simp [sends_append, hsend0, sends]
    · intro hw
      rw [← hpos] at hw
      rw [SaveUser_ok env _ _ hw]
      simp only [botSend, logOnErr_users, World.emit, hu]
    · intro hw
      rw [← hpos] at hw
      unfold SaveUser
      cases hr : env.writeErr (W1.emit (.GetUser m.From.ID)).events.length with
      | none => exact absurd hr hw
      | some e2 => simp only [botSend, logOnErr_users, World.emit, logPrintf, hu]

/-- C8, the failing input: `alice` is registered with the record `aliceOfAries`
and sends `/start` while the storage engine fails the read and serves the
write.  The handler takes the failed read for a missing record: it writes the
blank record, which replaces the stored sign and birth date, and sends the
welcome.  With a store that serves the read, the same command changes nothing,
and a first `/start` of a new user registers the user. -/
theorem handleStart_writes_unless_record_read_witness :
    ariesWorld.users 7 = some aliceOfAries ∧
    lockedReadEnv.readErr (removeProfileButtons lockedReadEnv 7 70 ariesWorld).events.length
      = some "database is locked" ∧
    lockedReadEnv.writeErr ((removeProfileButtons lockedReadEnv 7 70 ariesWorld).events.length + 1)
      = none ∧
    (handleStart lockedReadEnv (aliceSays "/start") ariesWorld).events
      = [.GetUser 7,
         .SaveUser { ID := 7, FirstName := "Alice", LastName := "", UserName := "alice",
                     ZodiacSign := "", BirthDate := "", BirthTime := "",
                     IsPremium := false, PremiumExpiry := 0 },
         .Send (.MessageConfig 70 "Добро пожаловать!" none)] ∧
    (handleStart lockedReadEnv (aliceSays "/start") ariesWorld).users
      = Function.update ariesWorld.users 7
        (some { ID := 7, FirstName := "Alice", LastName := "", UserName := "alice",
                ZodiacSign := "", BirthDate := "", BirthTime := "",
                IsPremium := false, PremiumExpiry := 0 }) ∧
    ((handleStart calmEnv (aliceSays "/start") ariesWorld).users = ariesWorld.users ∧
      ∃ evs, (handleStart calmEnv (aliceSays "/start") ariesWorld).events
          = ariesWorld.events ++ evs ∧
        saves evs = [] ∧
        sends evs = [.MessageConfig 70 "Вы уже зарегистрированы." none]) ∧
    (∃ evs, (handleStart calmEnv (aliceSays "/start") emptyWorld).events
        = emptyWorld.events ++ evs ∧
      saves evs = [{ ID := 7, FirstName := "Alice", LastName := "", UserName := "alice",
                     ZodiacSign := "", BirthDate := "", BirthTime := "",
                     IsPremium := false, PremiumExpiry := 0 }] ∧
      sends evs = [.MessageConfig 70 "Добро пожаловать!" none]) :=
  ⟨rfl, rfl, rfl, by decide,
    ((handleStart_writes_unless_record_read lockedReadEnv (aliceSays "/start") ariesWorld).2
      (Or.inr (fun h => Option.noConfusion h))).2.1 rfl,
    (handleStart_writes_unless_record_read calmEnv (aliceSays "/start") ariesWorld).1
      aliceOfAries rfl rfl,
    ((handleStart_writes_unless_record_read calmEnv (aliceSays "/start") emptyWorld).2
      (Or.inl rfl)).1⟩

theorem userMsg_trackUser (userID : Int) (w : World) :
    userMsg (trackUser userID w) userID = userMsg w userID := by
  unfold trackUser userMsg
  split
  · rfl
  · rename_i h
    simp [h]

theorem handleProfile_renders (env : Env) (userID chatID : Int) (sendNew : Bool) (w : World)
    (u : User) (hread : env.readErr w.events.length = none) (hu : w.users userID = some u) :
    ∃ pre n, (handleProfile env userID chatID sendNew w).events =
        w.events ++ pre ++ [.Send
          (if sendNew || (userMsg w userID).profileMessageID == 0 then
            .MessageConfig chatID
              (profileText u
                (if u.IsPremium then premiumStatus env u.PremiumExpiry (env.clock n) else "Нет"))
              (some profileKeyboard)
          else
            .EditMessageTextConfig chatID (userMsg w userID).profileMessageID
              (profileText u
                (if u.IsPremium then premiumStatus env u.PremiumExpiry (env.clock n) else "Нет"))
              (some profileKeyboard))] ∧
      sends pre = [] ∧ saves pre = [] := by
  unfold handleProfile
  rw [GetUser_ok env userID w u hread hu]
  simp only
  obtain ⟨_, _, hm, evs0, he, hs0, hsend0⟩ :=
    removeProfileButtons_frame env userID chatID (w.emit (.GetUser userID))
  generalize removeProfileButtons env userID chatID (w.emit (.GetUser userID)) = W1 at hm he
  have hum : ∀ W : World, W.userMessageIDs = W1.userMessageIDs →
      userMsg (trackUser userID W) userID = userMsg w userID := by
    intro W hW
    rw [userMsg_trackUser]
    unfold userMsg
    rw [hW, hm]
    rfl
  cases hp : u.IsPremium
  · simp only [Bool.false_eq_true, if_false, botSend, hum W1 rfl]
    refine ⟨.GetUser userID :: evs0, 0, ?_, ?_, ?_⟩
    · split <;> split <;>
        (simp [logPrintf, setProfileMessageID, World.emit, trackUser_events, he]
         try (split <;> rfl))
    · simp [sends, hsend0]
    · simp [saves, hs0]
  · simp only [if_true, timeNow, botSend]
    rw [hum (W1.emit .Now) rfl]
    refine ⟨.GetUser userID :: (evs0 ++ [.Now]), W1.events.length, ?_, ?_, ?_⟩
    · split <;> split <;>
        (simp [logPrintf, setProfileMessageID, World.emit, trackUser_events, he]
         try (split <;> rfl))
    · simp [sends, sends_append, hsend0]
    · simp [saves, saves_append, hs0]

theorem removeProfileButtons_userMessageIDs (env : Env) (userID chatID : Int) (w : World) :
    (removeProfileButtons env userID chatID w).userMessageIDs = w.userMessageIDs :=
  (removeProfileButtons_frame env userID chatID w).2.2.1

theorem userMsg_trackUser_other (userID x : Int) (w : World) :
    userMsg (trackUser userID w) x = userMsg w x := by
  by_cases hx : x = userID
  · subst hx
    exact userMsg_trackUser x w
  · unfold trackUser userMsg
    split
    · rfl
    · simp [Function.update_noteq hx]

theorem handleProfile_invoiceMessageID (env : Env) (userID chatID : Int) (sendNew : Bool)
    (w : World) (x : Int) :
    (userMsg (handleProfile env userID chatID sendNew w) x).invoiceMessageID
      = (userMsg w x).invoiceMessageID := by
  have hg := GetUser_world env userID w
  unfold handleProfile
  rcases hr : GetUser env userID w with ⟨w2, r⟩
  rw [hr] at hg
  simp only at hg
  subst hg
  have key : ∀ W : World, W.userMessageIDs = w.userMessageIDs →
      ∀ id, (userMsg (setProfileMessageID userID id (trackUser userID W)) x).invoiceMessageID
        = (userMsg w x).invoiceMessageID := by
    intro W hW id
    have h0 : userMsg W x = userMsg w x := by
      unfold userMsg
      rw [hW]
    by_cases hx : x = userID
    · subst hx
      simp only [setProfileMessageID, userMsg, Function.update_same, Option.getD_some]
      have := userMsg_trackUser x W
      unfold userMsg at this h0
      rw [this, h0]
    · have h1 : userMsg (setProfileMessageID userID id (trackUser userID W)) x
          = userMsg (trackUser userID W) x := by
        simp only [setProfileMessageID, userMsg, Function.update_noteq hx]
      rw [h1, userMsg_trackUser_other, h0]
  have key2 : ∀ W : World, W.userMessageIDs = w.userMessageIDs →
      (userMsg (trackUser userID W) x).invoiceMessageID = (userMsg w x).invoiceMessageID := by
    intro W hW
    rw [userMsg_trackUser_other]
    unfold userMsg
    rw [hW]
  cases r with
  | error e =>
    simp only [botSend, logOnErr]
    split <;> rfl
  | ok user =>
    cases hp : user.IsPremium <;>
    · simp only [hp, botSend, timeNow, if_true, if_false, Bool.false_eq_true]
      split <;> split <;> (try split) <;>
        first
          | exact key _ (by simp [World.emit, removeProfileButtons_userMessageIDs]) _
          | exact key2 _ (by simp [World.emit, removeProfileButtons_userMessageIDs])

theorem isProfileCard_render (chatID : Int) (u : User) (status : String) (b : Bool) (id : Int) :
    IsProfileCard chatID u
      (if b then .MessageConfig chatID (profileText u status) (some profileKeyboard)
       else .EditMessageTextConfig chatID id (profileText u status) (some profileKeyboard)) := by
  refine ⟨status, ?_⟩
  cases b
  · exact Or.inr ⟨id, rfl⟩
  · exact Or.inl rfl

theorem handleProfile_renders_card (env : Env) (userID chatID : Int) (sendNew : Bool)
    (w : World) (u : User) (hread : env.readErr w.events.length = none)
    (hu : w.users userID = some u) :
    ∃ pre c, (handleProfile env userID chatID sendNew w).events = w.events ++ pre ++ [.Send c] ∧
      sends pre = [] ∧ saves pre = [] ∧ IsProfileCard chatID u c := by
  obtain ⟨pre, n, he, hs, hsv⟩ := handleProfile_renders env userID chatID sendNew w u hread hu
  exact ⟨pre, _, he, hs, hsv, isProfileCard_render _ _ _ _ _⟩

theorem afterPayment_spec (env : Env) (userID chatID : Int) (w : World) (u : User)
    (hread : env.readErr (w.events.length + 1) = none ∧ env.readErr w.events.length = none)
    (hu : w.users userID = some u) :
    (afterPayment env userID chatID w).users = w.users ∧
    (userMsg (afterPayment env userID chatID w) userID).invoiceMessageID = 0 ∧
    ∃ evs, (afterPayment env userID chatID w).events = w.events ++ evs ∧
      saves evs = [] ∧
      (∀ r, w.userMessageIDs userID = some r →
        (r.invoiceMessageID ≠ 0 →
          Event.Request (.DeleteMessageConfig chatID r.invoiceMessageID) ∈ evs) ∧
        ∃ pre c, evs = pre ++ [.Send c] ∧ sends pre = [] ∧ IsProfileCard chatID u c) ∧
      (w.userMessageIDs userID = none → evs = []) := by
  unfold afterPayment
  cases hrec : w.userMessageIDs userID with
  | none =>
    simp only
    refine ⟨trivial, ?_, [], by simp, rfl, ?_, fun _ => rfl⟩
    · simp [userMsg, hrec]
    · intro r h
      cases h
  | some r =>
    simp only [handleProfile_users, handleProfile_invoiceMessageID]
    by_cases hinv : r.invoiceMessageID = 0
    · have hne : (r.invoiceMessageID != 0) = false := by simp [hinv]
      simp only [hne, Bool.false_eq_true, if_false]
      obtain ⟨pre, c, he, hs, hsv, hcard⟩ :=
        handleProfile_renders_card env userID chatID false w u hread.2 hu
      refine ⟨trivial, ?_, pre ++ [.Send c], by rw [he, List.append_assoc], ?_, ?_, ?_⟩
      · simp [userMsg, hrec, hinv]
      · simp [saves_append, hsv, saves]
      · intro r' hr'
        cases hr'
        exact ⟨fun h => absurd hinv h, pre, c, rfl, hs, hcard⟩
      · intro h
        cases h
    · have hne : (r.invoiceMessageID != 0) = true := by simp [hinv]
      simp only [hne, if_true, botRequest]
      have hu2 : (setInvoiceMessageID userID 0
          (logOnErr (env.api w.events.length) "Error deleting invoice message: %v"
            (w.emit (.Request (.DeleteMessageConfig chatID r.invoiceMessageID))))).users userID
          = some u := by
        simp only [setInvoiceMessageID, logOnErr_users, World.emit]
        exact hu
      have hev : (setInvoiceMessageID userID 0
          (logOnErr (env.api w.events.length) "Error deleting invoice message: %v"
            (w.emit (.Request (.DeleteMessageConfig chatID r.invoiceMessageID))))).events
          = w.events ++ [.Request (.DeleteMessageConfig chatID r.invoiceMessageID)] := by
        simp only [setInvoiceMessageID, logOnErr_events, World.emit]
      obtain ⟨pre, c, he, hs, hsv, hcard⟩ :=
        handleProfile_renders_card env userID chatID false _ u
          (by rw [hev, List.length_append]; exact hread.1) hu2
      rw [hev] at he
      refine ⟨?_, ?_, .Request (.DeleteMessageConfig chatID r.invoiceMessageID) :: pre ++ [.Send c],
        by rw [he]; simp, ?_, ?_, ?_⟩
      · simp only [setInvoiceMessageID, logOnErr_users, World.emit]
      · simp [userMsg, setInvoiceMessageID]
      · simp [saves_append, hsv, saves]
      · intro r' hr'
        cases hr'
        refine ⟨fun _ => by simp, _, c, rfl, ?_, hcard⟩
        simp [sends, hs]
      · intro h
        cases h

theorem handleSuccessfulPayment_saved (env : Env) (m : Message) (w : World) (u : User)
    (hreg : w.users m.From.ID = some u) (hid : u.ID = m.From.ID) (hdb : env.storageOk) :
    ∃ W2 : World, handleSuccessfulPayment env m w = afterPayment env m.From.ID m.ChatID W2 ∧
      W2.users = Function.update w.users m.From.ID
        (some (withPremium u (env.AddDate (env.clock (w.events.length + 2)) 0 1 0))) ∧
      W2.userMessageIDs = w.userMessageIDs ∧
      W2.events = w.events ++ [.Request (.DeleteMessageConfig m.ChatID m.MessageID),
        .GetUser m.From.ID, .Now,
        .SaveUser (withPremium u (env.AddDate (env.clock (w.events.length + 2)) 0 1 0))] := by
  unfold handleSuccessfulPayment
  simp only [botRequest]
  rw [GetUser_ok env m.From.ID _ u (hdb _).1 (by rw [logOnErr_users]; exact hreg)]
  simp only [timeNow]
  rw [SaveUser_ok env _ _ (hdb _).2]
  refine ⟨_, rfl, ?_, ?_, ?_⟩
  · simp only [World.emit, logOnErr_users, logOnErr_events, List.length_append,
      List.length_singleton, hid, withPremium]
  · simp only [World.emit, logOnErr_userMessageIDs]
  · simp only [World.emit, logOnErr_events, List.length_append, List.length_singleton,
      List.append_assoc, withPremium]
    rfl

/-- C9, amended: with a registered user and a profile store that serves its
calls, `handleSuccessfulPayment` stores the profile with the premium flag set,
the expiry one calendar month after the clock reading and every other field
unchanged; its first call is the delete request for the payment-confirmation
message; the tracked invoice id is absent afterwards; when the user has a
record in the UI message tracker, a tracked invoice message is deleted and the
last call is the one `bot.Send` of the handler, showing the profile card of
the new record; when the user has no record in the tracker, nothing is sent:
the profile card is not rendered. -/
theorem payment_grants_premium (env : Env) (m : Message) (w : World) (u : User)
    (hreg : w.users m.From.ID = some u) (hid : u.ID = m.From.ID) (hdb : env.storageOk) :
    (handleSuccessfulPayment env m w).users = Function.update w.users m.From.ID
      (some (withPremium u (env.AddDate (env.clock (w.events.length + 2)) 0 1 0))) ∧
    (userMsg (handleSuccessfulPayment env m w) m.From.ID).invoiceMessageID = 0 ∧
    ∃ evs, (handleSuccessfulPayment env m w).events =
        w.events ++ .Request (.DeleteMessageConfig m.ChatID m.MessageID) :: evs ∧
      (∀ r, w.userMessageIDs m.From.ID = some r →
        (r.invoiceMessageID ≠ 0 →
          Event.Request (.DeleteMessageConfig m.ChatID r.invoiceMessageID) ∈ evs) ∧
        ∃ pre c, evs = pre ++ [.Send c] ∧ sends pre = [] ∧
          IsProfileCard m.ChatID
            (withPremium u (env.AddDate (env.clock (w.events.length + 2)) 0 1 0)) c) ∧
      (w.userMessageIDs m.From.ID = none → sends evs = []) := by
  obtain ⟨W2, heq, hW2u, hW2m, hW2e⟩ := handleSuccessfulPayment_saved env m w u hreg hid hdb
  rw [heq]
  obtain ⟨h1, h2, evs, h3, _, h4, h5⟩ := afterPayment_spec env m.From.ID m.ChatID W2
    (withPremium u (env.AddDate (env.clock (w.events.length + 2)) 0 1 0))
    ⟨(hdb _).1, (hdb _).1⟩ (by rw [hW2u, Function.update_same])
  refine ⟨by rw [h1, hW2u], h2, [.GetUser m.From.ID, .Now,
    .SaveUser (withPremium u (env.AddDate (env.clock (w.events.length + 2)) 0 1 0))] ++ evs,
    by rw [h3, hW2e]; simp, ?_, ?_⟩
  · intro r hr
    obtain ⟨ha, pre, c, hb, hc, hd⟩ := h4 r (by rw [hW2m]; exact hr)
    refine ⟨fun hne => ?_, _ ++ pre, c, by rw [hb, List.append_assoc], ?_, hd⟩
    · exact List.mem_append_right _ (ha hne)
    · simp [sends_append, sends, hc]
  · intro hnone
    rw [h5 (by rw [hW2m]; exact hnone)]
    rfl

/-- C9, counterexample: `alice` is registered but the UI message tracker has no
record for this user (as after a restart).  The handler deletes the
payment message and stores the premium grant, and then stops: nothing is sent,
the profile card is not rendered. -/
theorem payment_without_tracker_record_renders_nothing :
    (aliceIn .StateIdle).users 7 = some alice ∧
    (aliceIn .StateIdle).userMessageIDs 7 = none ∧
    (handleSuccessfulPayment calmEnv alicePays (aliceIn .StateIdle)).events =
      [.Request (.DeleteMessageConfig 70 43), .GetUser 7, .Now,
       .SaveUser (withPremium alice 63002592000000000000)] ∧
    ¬ ∃ c, Event.Send c ∈ (handleSuccessfulPayment calmEnv alicePays (aliceIn .StateIdle)).events := by
  have he : (handleSuccessfulPayment calmEnv alicePays (aliceIn .StateIdle)).events =
      [.Request (.DeleteMessageConfig 70 43), .GetUser 7, .Now,
       .SaveUser (withPremium alice 63002592000000000000)] := by
    decide
  refine ⟨rfl, rfl, he, ?_⟩
  rw [he]
  simp

/-- C9, witness: `alice` pays while a profile card and an invoice are tracked. -/
theorem payment_grants_premium_witness :
    aliceInvoiced.users 7 = some alice ∧ calmEnv.storageOk ∧
    (handleSuccessfulPayment calmEnv alicePays aliceInvoiced).users
      = Function.update aliceInvoiced.users 7 (some (withPremium alice 63002592000000000000)) ∧
    (userMsg (handleSuccessfulPayment calmEnv alicePays aliceInvoiced) 7).invoiceMessageID = 0 :=
  ⟨rfl, fun _ => ⟨rfl, rfl⟩,
    (payment_grants_premium calmEnv alicePays aliceInvoiced alice rfl rfl (fun _ => ⟨rfl, rfl⟩)).1,
    (payment_grants_premium calmEnv alicePays aliceInvoiced alice rfl rfl
      (fun _ => ⟨rfl, rfl⟩)).2.1⟩

theorem emit_events (w : World) (e : Event) : (w.emit e).events = w.events ++ [e] := rfl

theorem SaveUser_fail (env : Env) (user : User) (w : World)
    (hw : env.writeErr w.events.length ≠ none) :
    (SaveUser env user w).1 = w.emit (.SaveUser user) ∧ (SaveUser env user w).2 ≠ none := by
  unfold SaveUser
  cases h : env.writeErr w.events.length with
  | none => exact absurd h hw
  | some e => exact ⟨rfl, by simp⟩

theorem textEdit_failed_save (env : Env) (m : Message) (w : World) (u : User) (f : Field)
    (hstate : GetState w m.From.ID = f.state) (hvalid : f.valid m.Text = true)
    (hreg : w.users m.From.ID = some u) (hdb : env.writesFail) :
    (handleMessage env m w).users = w.users ∧
    GetState (handleMessage env m w) m.From.ID = .StateIdle ∧
    ∃ pre c, (handleMessage env m w).events = w.events ++
        [.GetUser m.From.ID, .SaveUser (f.set u m.Text),
         .Request (.DeleteMessageConfig m.ChatID m.MessageID)] ++ pre ++ [.Send c] ∧
      IsProfileCard m.ChatID u c := by
  have hg := GetUser_ok env m.From.ID (trackUser m.From.ID w) u (hdb _).1
    (by rw [trackUser_users]; exact hreg)
  have tail : ∀ (u' : User) (line1 line2 : String),
      let W := handleProfile env m.From.ID m.ChatID false
        (ClearState m.From.ID
          (logOnErr (botRequest env (.DeleteMessageConfig m.ChatID m.MessageID)
              (match (SaveUser env u' ((trackUser m.From.ID w).emit (.GetUser m.From.ID))).2 with
                | some _ => logPrintf line1
                    (SaveUser env u' ((trackUser m.From.ID w).emit (.GetUser m.From.ID))).1
                | none => (SaveUser env u' ((trackUser m.From.ID w).emit (.GetUser m.From.ID))).1)).2
            line2
            (botRequest env (.DeleteMessageConfig m.ChatID m.MessageID)
              (match (SaveUser env u' ((trackUser m.From.ID w).emit (.GetUser m.From.ID))).2 with
                | some _ => logPrintf line1
                    (SaveUser env u' ((trackUser m.From.ID w).emit (.GetUser m.From.ID))).1
                | none => (SaveUser env u' ((trackUser m.From.ID w).emit (.GetUser m.From.ID))).1)).1))
      W.users = w.users ∧ GetState W m.From.ID = .StateIdle ∧
      ∃ pre c, W.events = w.events ++
        [.GetUser m.From.ID, .SaveUser u',
         .Request (.DeleteMessageConfig m.ChatID m.MessageID)] ++ pre ++ [.Send c] ∧
      IsProfileCard m.ChatID u c := by
    intro u' line1 line2
    obtain ⟨hs1, hs2⟩ := SaveUser_fail env u' ((trackUser m.From.ID w).emit (.GetUser m.From.ID))
      (hdb _).2
    rcases hsv : SaveUser env u' ((trackUser m.From.ID w).emit (.GetUser m.From.ID)) with ⟨W1, err⟩
    rw [hsv] at hs1 hs2
    simp only at hs1 hs2
    subst hs1
    cases err with
    | none => exact absurd rfl hs2
    | some e =>
      simp only [botRequest]
      refine ⟨?_, ?_, ?_⟩
      · simp only [handleProfile_users, ClearState, logOnErr_users, World.emit, logPrintf,
          trackUser_users]
      · unfold GetState
        simp only [handleProfile_userStates, ClearState, Function.update_same]
      · obtain ⟨pre, c, he, _, _, hcard⟩ := handleProfile_renders_card env m.From.ID m.ChatID false
          (ClearState m.From.ID
            (logOnErr (env.api (logPrintf line1
                (((trackUser m.From.ID w).emit (.GetUser m.From.ID)).emit
                  (.SaveUser u'))).events.length) line2
              ((logPrintf line1 (((trackUser m.From.ID w).emit (.GetUser m.From.ID)).emit
                (.SaveUser u'))).emit (.Request (.DeleteMessageConfig m.ChatID m.MessageID)))))
          u (hdb _).1
          (by simp only [ClearState, logOnErr_users, World.emit, logPrintf, trackUser_users]
              exact hreg)
        refine ⟨pre, c, ?_, hcard⟩
        rw [he]
        simp only [ClearState, logOnErr_events, World.emit, logPrintf, trackUser_events,
          List.append_assoc, List.singleton_append, List.cons_append, List.nil_append]
  unfold handleMessage
  cases f with
  | Name =>
    simp only [hstate, Field.state, hg]
    exact tail _ _ _
  | BirthDate =>
    simp only [Field.valid] at hvalid
    simp only [hstate, Field.state, hg, hvalid, Bool.not_true, Bool.false_eq_true, if_false]
    exact tail _ _ _
  | BirthTime =>
    simp only [Field.valid] at hvalid
    simp only [hstate, Field.state, hg, hvalid, Bool.not_true, Bool.false_eq_true, if_false]
    exact tail _ _ _

theorem zodiac_failed_save (env : Env) (q : CallbackQuery) (label : String) (w : World) (u : User)
    (hpre : HasPrefix q.Data "zodiac_" = true)
    (hmap : zodiacMap (TrimPrefix q.Data "zodiac_") = some label)
    (hreg : w.users q.From.ID = some u) (hdb : env.writesFail) :
    (handleCallbackQuery env q w).users = w.users ∧
    GetState (handleCallbackQuery env q w) q.From.ID = .StateIdle ∧
    ∃ pre c, (handleCallbackQuery env q w).events = w.events ++
        [.GetUser q.From.ID, .SaveUser { u with ZodiacSign := label }] ++ pre ++
        [.Send c, .Request (.CallbackConfig q.ID "")] ∧
      IsProfileCard q.Message.ChatID u c := by
  have n1 : q.Data ≠ "edit_name" := by
    intro h; rw [h] at hpre; exact absurd hpre (by decide)
  have n2 : q.Data ≠ "edit_zodiac" := by
    intro h; rw [h] at hpre; exact absurd hpre (by decide)
  have n3 : q.Data ≠ "edit_birthdate" := by
    intro h; rw [h] at hpre; exact absurd hpre (by decide)
  have n4 : q.Data ≠ "edit_birthtime" := by
    intro h; rw [h] at hpre; exact absurd hpre (by decide)
  have n5 : q.Data ≠ "buy_premium" := by
    intro h; rw [h] at hpre; exact absurd hpre (by decide)
  have n6 : q.Data ≠ "cancel" := by
    intro h; rw [h] at hpre; exact absurd hpre (by decide)
  have hg := GetUser_ok env q.From.ID (trackUser q.From.ID w) u (hdb _).1
    (by rw [trackUser_users]; exact hreg)
  unfold handleCallbackQuery
  simp only [n1, n2, n3, n4, n5, n6, if_false, hpre, if_true, hmap, hg]
  obtain ⟨hs1, hs2⟩ := SaveUser_fail env { u with ZodiacSign := label }
    ((trackUser q.From.ID w).emit (.GetUser q.From.ID)) (hdb _).2
  rcases hsv : SaveUser env { u with ZodiacSign := label }
    ((trackUser q.From.ID w).emit (.GetUser q.From.ID)) with ⟨W1, err⟩
  rw [hsv] at hs1 hs2
  simp only at hs1 hs2
  subst hs1
  cases err with
  | none => exact absurd rfl hs2
  | some e =>
    simp only [acknowledge, botRequest]
    refine ⟨?_, ?_, ?_⟩
    · simp only [logOnErr_users, World.emit, handleProfile_users, ClearState, logPrintf,
        trackUser_users]
    · unfold GetState
      simp only [logOnErr_userStates, World.emit, handleProfile_userStates, ClearState,
        Function.update_same]
    · obtain ⟨pre, c, he, _, _, hcard⟩ := handleProfile_renders_card env q.From.ID
          q.Message.ChatID false
          (ClearState q.From.ID (logPrintf "Error updating user zodiac sign: %v"
            (((trackUser q.From.ID w).emit (.GetUser q.From.ID)).emit
              (.SaveUser { u with ZodiacSign := label }))))
          u (hdb _).1
          (by simp only [ClearState, World.emit, logPrintf, trackUser_users]
              exact hreg)
      refine ⟨pre, c, ?_, hcard⟩
      rw [logOnErr_events, emit_events, he]
      simp only [ClearState, World.emit, logPrintf, trackUser_events,
        List.append_assoc, List.singleton_append, List.cons_append, List.nil_append]

theorem SaveUser_of_writesFail {env : Env} {user : User} {w W1 : World} {err : Option String}
    (hdb : env.writesFail) (h : SaveUser env user w = (W1, err)) :
    W1 = w.emit (.SaveUser user) ∧ err ≠ none := by
  obtain ⟨h1, h2⟩ := SaveUser_fail env user w (hdb _).2
  rw [h] at h1 h2
  exact ⟨h1, h2⟩

theorem payment_failed_save (env : Env) (m : Message) (w : World) (u : User)
    (hreg : w.users m.From.ID = some u) (hdb : env.writesFail) :
    (handleSuccessfulPayment env m w).users = w.users ∧
    ∃ evs, (handleSuccessfulPayment env m w).events = w.events ++
        [.Request (.DeleteMessageConfig m.ChatID m.MessageID), .GetUser m.From.ID, .Now,
         .SaveUser (withPremium u (env.AddDate (env.clock (w.events.length + 2)) 0 1 0))] ++ evs ∧
      ∀ r, w.userMessageIDs m.From.ID = some r →
        (r.invoiceMessageID ≠ 0 →
          Event.Request (.DeleteMessageConfig m.ChatID r.invoiceMessageID) ∈ evs) ∧
        ∃ pre c, evs = pre ++ [.Send c] ∧ IsProfileCard m.ChatID u c := by
  unfold handleSuccessfulPayment
  simp only [botRequest]
  rw [GetUser_ok env m.From.ID _ u (hdb _).1 (by rw [logOnErr_users]; exact hreg)]
  simp only [timeNow]
  rcases hsv : SaveUser env _ _ with ⟨W1, err⟩
  obtain ⟨hs1, hs2⟩ := SaveUser_of_writesFail hdb hsv
  subst hs1
  cases err with
  | none => exact absurd rfl hs2
  | some e =>
    simp only
    generalize hW : logPrintf "Error updating user: %v" _ = W2
    have hu2 : W2.users = w.users := by
      rw [← hW]
      simp only [logPrintf, World.emit, logOnErr_users]
    have hm2 : W2.userMessageIDs = w.userMessageIDs := by
      rw [← hW]
      simp only [logPrintf, World.emit, logOnErr_userMessageIDs]
    have he2 : W2.events = w.events ++
        [.Request (.DeleteMessageConfig m.ChatID m.MessageID), .GetUser m.From.ID, .Now,
         .SaveUser (withPremium u (env.AddDate (env.clock (w.events.length + 2)) 0 1 0))] := by
      rw [← hW]
      simp only [logPrintf, World.emit, logOnErr_events, List.length_append,
        List.length_singleton, List.append_assoc, withPremium]
      rfl
    obtain ⟨h1, _, evs, h3, _, h4, _⟩ := afterPayment_spec env m.From.ID m.ChatID W2 u
      ⟨(hdb _).1, (hdb _).1⟩ (by rw [hu2]; exact hreg)
    refine ⟨by rw [h1, hu2], evs, by rw [h3, he2], ?_⟩
    intro r hr
    obtain ⟨ha, pre, c, hb, _, hd⟩ := h4 r (by rw [hm2]; exact hr)
    exact ⟨ha, pre, c, hb, hd⟩

theorem registration_failed_save (env : Env) (m : Message) (w : World)
    (hnone : w.users m.From.ID = none) (hdb : env.writesFail) :
    (handleStart env m w).users = w.users ∧
    ∃ pre, (handleStart env m w).events = w.events ++ pre ++
        [.GetUser m.From.ID,
         .SaveUser { ID := m.From.ID, FirstName := m.From.FirstName,
                     LastName := m.From.LastName, UserName := m.From.UserName },
         .Send (.MessageConfig m.ChatID "Добро пожаловать!" none)] ∧
      sends pre = [] ∧ saves pre = [] := by
  obtain ⟨hu, _, _, evs0, he, hs0, hsend0⟩ := removeProfileButtons_frame env m.From.ID m.ChatID w
  unfold handleStart
  simp only
  generalize removeProfileButtons env m.From.ID m.ChatID w = W1 at hu he
  rw [GetUser_none env _ W1 (hdb _).1 (by rw [hu]; exact hnone)]
  simp only
  rcases hsv : SaveUser env _ _ with ⟨W2, err⟩
  obtain ⟨hs1, hs2⟩ := SaveUser_of_writesFail hdb hsv
  subst hs1
  cases err with
  | none => exact absurd rfl hs2
  | some e =>
    simp only [botSend, logOnErr_users, logOnErr_events, World.emit, logPrintf, hu, he,
      List.append_assoc]
    exact ⟨trivial, evs0, by simp, hsend0, hs0⟩

/-- C7, counterexample: `alice`, editing the name, sends `Bob` while the
storage engine fails every write.  The failed `SaveUser` is the second call of
`handleMessage`; the handler then still issues the delete request for the
input message, clears the conversation state and sends the profile card,
recording its identifier in the UI message tracker. -/
theorem failed_save_does_not_abort :
    fullDiskEnv.writeErr 1 ≠ none ∧
    (handleMessage fullDiskEnv (aliceSays "Bob") (aliceIn .StateEditingName)).events =
      [.GetUser 7, .SaveUser { alice with FirstName := "Bob" },
       .Request (.DeleteMessageConfig 70 42), .GetUser 7,
       .Send (.MessageConfig 70 (profileText alice "Нет") (some profileKeyboard))] ∧
    GetState (aliceIn .StateEditingName) 7 = .StateEditingName ∧
    GetState (handleMessage fullDiskEnv (aliceSays "Bob") (aliceIn .StateEditingName)) 7
      = .StateIdle ∧
    (handleMessage fullDiskEnv (aliceSays "Bob") (aliceIn .StateEditingName)).userMessageIDs 7
      = some { profileMessageID := 500 } ∧
    (handleMessage fullDiskEnv (aliceSays "Bob") (aliceIn .StateEditingName)).users 7
      = some alice := by
  refine ⟨by decide, by decide, by decide, by decide, by decide, by decide⟩

/-- C7, amended: a failed `SaveUser` does not abort the handler.  With a
storage engine that serves every query and fails every write, the stored
profiles are left as they were and the handler carries on: after a valid name,
birth date or birth time it still issues the delete request for the input
message, clears the conversation state and sends the profile card of the
unchanged record; after a zodiac selection it still clears the state, sends
that profile card and acknowledges the callback query; after a successful
payment it still deletes a tracked invoice message and sends that profile card
when the user has a tracker record; and a registration still sends the welcome
message. -/
theorem failed_save_does_not_stop_handler (env : Env) (hdb : env.writesFail) :
    (∀ (m : Message) (w : World) (u : User) (f : Field),
      GetState w m.From.ID = f.state → f.valid m.Text = true → w.users m.From.ID = some u →
      (handleMessage env m w).users = w.users ∧
      GetState (handleMessage env m w) m.From.ID = .StateIdle ∧
      ∃ pre c, (handleMessage env m w).events = w.events ++
          [.GetUser m.From.ID, .SaveUser (f.set u m.Text),
           .Request (.DeleteMessageConfig m.ChatID m.MessageID)] ++ pre ++ [.Send c] ∧
        IsProfileCard m.ChatID u c) ∧
    (∀ (q : CallbackQuery) (label : String) (w : World) (u : User),
      HasPrefix q.Data "zodiac_" = true → zodiacMap (TrimPrefix q.Data "zodiac_") = some label →
      w.users q.From.ID = some u →
      (handleCallbackQuery env q w).users = w.users ∧
      GetState (handleCallbackQuery env q w) q.From.ID = .StateIdle ∧
      ∃ pre c, (handleCallbackQuery env q w).events = w.events ++
          [.GetUser q.From.ID, .SaveUser { u with ZodiacSign := label }] ++ pre ++
          [.Send c, .Request (.CallbackConfig q.ID "")] ∧
        IsProfileCard q.Message.ChatID u c) ∧
    (∀ (m : Message) (w : World) (u : User), w.users m.From.ID = some u →
      (handleSuccessfulPayment env m w).users = w.users ∧
      ∃ evs, (handleSuccessfulPayment env m w).events = w.events ++
          [.Request (.DeleteMessageConfig m.ChatID m.MessageID), .GetUser m.From.ID, .Now,
           .SaveUser (withPremium u (env.AddDate (env.clock (w.events.length + 2)) 0 1 0))]
            ++ evs ∧
        ∀ r, w.userMessageIDs m.From.ID = some r →
          (r.invoiceMessageID ≠ 0 →
            Event.Request (.DeleteMessageConfig m.ChatID r.invoiceMessageID) ∈ evs) ∧
          ∃ pre c, evs = pre ++ [.Send c] ∧ IsProfileCard m.ChatID u c) ∧
    (∀ (m : Message) (w : World), w.users m.From.ID = none →
      (handleStart env m w).users = w.users ∧
      ∃ pre, (handleStart env m w).events = w.events ++ pre ++
          [.GetUser m.From.ID,
           .SaveUser { ID := m.From.ID, FirstName := m.From.FirstName,
                       LastName := m.From.LastName, UserName := m.From.UserName },
           .Send (.MessageConfig m.ChatID "Добро пожаловать!" none)] ∧
        sends pre = [] ∧ saves pre = []) :=
  ⟨fun m w u f h1 h2 h3 => textEdit_failed_save env m w u f h1 h2 h3 hdb,
   fun q label w u h1 h2 h3 => zodiac_failed_save env q label w u h1 h2 h3 hdb,
   fun m w u h => payment_failed_save env m w u h hdb,
   fun m w h => registration_failed_save env m w h hdb⟩

/-- C7, witness: `alice`, editing the name, sends `Bob` while every write fails. -/
theorem failed_save_does_not_stop_handler_witness :
    fullDiskEnv.writesFail ∧
    GetState (aliceIn .StateEditingName) 7 = .StateEditingName ∧
    (aliceIn .StateEditingName).users 7 = some alice ∧
    (handleMessage fullDiskEnv (aliceSays "Bob") (aliceIn .StateEditingName)).users
      = (aliceIn .StateEditingName).users ∧
    GetState (handleMessage fullDiskEnv (aliceSays "Bob") (aliceIn .StateEditingName)) 7
      = .StateIdle ∧
    ∃ pre c, (handleMessage fullDiskEnv (aliceSays "Bob") (aliceIn .StateEditingName)).events
        = (aliceIn .StateEditingName).events ++
          [.GetUser 7, .SaveUser (Field.Name.set alice "Bob"),
           .Request (.DeleteMessageConfig 70 42)] ++ pre ++ [.Send c] ∧
      IsProfileCard 70 alice c :=
  ⟨fun _ => ⟨rfl, fun h => Option.noConfusion h⟩, by decide, rfl,
    (failed_save_does_not_stop_handler fullDiskEnv (fun _ => ⟨rfl, fun h => Option.noConfusion h⟩)).1
      (aliceSays "Bob") (aliceIn .StateEditingName) alice .Name (by decide) rfl rfl⟩

theorem truncToInt_neg (x : ℚ) : truncToInt (-x) = -truncToInt x := by
  unfold truncToInt
  rcases lt_trichotomy x 0 with h | h | h
  · have h1 : (0 : ℚ) ≤ -x := by linarith
    have h2 : ¬ (0 : ℚ) ≤ x := by linarith
    rw [if_pos h1, if_neg h2, Int.floor_neg]
  · subst h
    simp
  · have h1 : ¬ (0 : ℚ) ≤ -x := by linarith
    have h2 : (0 : ℚ) ≤ x := by linarith
    rw [if_neg h1, if_pos h2, Int.ceil_neg]

theorem neg_tmod (a b : Int) : (-a).tmod b = -(a.tmod b) := by
  rw [Int.tmod_def, Int.tmod_def, Int.neg_tdiv]
  ring

theorem Hours_neg (env : Env) (h : env.roundsLikeFloat64) (d : Int) :
    Hours env (-d) = -Hours env d := by
  obtain ⟨_, hodd, _, _⟩ := h
  unfold Hours
  simp only [Int.neg_tdiv, neg_tmod, Int.cast_neg, hodd, neg_div, ← neg_add]

theorem f64_chain_bound (t k : ℚ) (D : ℚ)
    (htmax : t ≤ 9223372036854775808 / 86400000000000)
    (htk : t ≤ k + 1 - 4000 / 86400000000000)
    (hD : D ≤ t * (1 + 1 / 2 ^ 53) * (1 + 1 / 2 ^ 53) * (1 + 1 / 2 ^ 53)) : D < k + 1 := by
  have h1 : t * (1 + 1 / 2 ^ 53) * (1 + 1 / 2 ^ 53) * (1 + 1 / 2 ^ 53)
      = t + t * ((1 + 1 / 2 ^ 53) * (1 + 1 / 2 ^ 53) * (1 + 1 / 2 ^ 53) - 1) := by ring
  have h2 : (0 : ℚ) ≤ (1 + 1 / 2 ^ 53) * (1 + 1 / 2 ^ 53) * (1 + 1 / 2 ^ 53) - 1 := by norm_num
  have h3 : t * ((1 + 1 / 2 ^ 53) * (1 + 1 / 2 ^ 53) * (1 + 1 / 2 ^ 53) - 1)
      ≤ 9223372036854775808 / 86400000000000 *
        ((1 + 1 / 2 ^ 53) * (1 + 1 / 2 ^ 53) * (1 + 1 / 2 ^ 53) - 1) :=
    mul_le_mul_of_nonneg_right htmax h2
  have h4 : (9223372036854775808 : ℚ) / 86400000000000 *
      ((1 + 1 / 2 ^ 53) * (1 + 1 / 2 ^ 53) * (1 + 1 / 2 ^ 53) - 1) < 4000 / 86400000000000 := by
    norm_num
  rw [h1] at hD
  linarith

theorem daysLeft_of_nonneg (env : Env) (h : env.roundsLikeFloat64) (d : Int) (hd0 : 0 ≤ d)
    (hd : d ≤ 9223372036854775808) (hm : d % 86400000000000 + 4000 ≤ 86400000000000) :
    truncToInt (env.f64 (Hours env d / 24)) = d / 86400000000000 := by
  obtain ⟨hmono, _, hint, hup⟩ := h
  have e1 : Int.tdiv d 3600000000000 = d / 3600000000000 := Int.tdiv_eq_ediv hd0 (by norm_num)
  have e2 : Int.tmod d 3600000000000 = d % 3600000000000 := Int.tmod_eq_emod hd0 (by norm_num)
  unfold Hours
  simp only [e1, e2]
  have hh0 : 0 ≤ d / 3600000000000 := by omega
  have hn0 : 0 ≤ d % 3600000000000 := by omega
  have hn1 : d % 3600000000000 < 3600000000000 := by omega
  have hhk : 24 * (d / 86400000000000) ≤ d / 3600000000000 := by omega
  have hk0 : 0 ≤ d / 86400000000000 := by omega
  have hdec : d = 3600000000000 * (d / 3600000000000) + d % 3600000000000 := by omega
  have hdec2 : d = 86400000000000 * (d / 86400000000000) + d % 86400000000000 := by omega
  generalize d / 3600000000000 = hour at *
  generalize d % 3600000000000 = nsec at *
  generalize d / 86400000000000 = k at *
  generalize d % 86400000000000 = r at *
  have p53 : (2 : Int) ^ 53 = 9007199254740992 := by norm_num
  have f0 : env.f64 0 = 0 := by
    have := hint 0 (by norm_num) (by norm_num)
    simpa using this
  have f1 : env.f64 1 = 1 := by
    have := hint 1 (by norm_num) (by norm_num)
    simpa using this
  have ha : env.f64 (hour : ℚ) = (hour : ℚ) := hint hour (by rw [p53]; omega) (by rw [p53]; omega)
  have hb : env.f64 (nsec : ℚ) = (nsec : ℚ) := hint nsec (by rw [p53]; omega) (by rw [p53]; omega)
  have h24k : env.f64 ((24 * k : Int) : ℚ) = ((24 * k : Int) : ℚ) :=
    hint (24 * k) (by rw [p53]; omega) (by rw [p53]; omega)
  have hkq : env.f64 (k : ℚ) = (k : ℚ) := hint k (by rw [p53]; omega) (by rw [p53]; omega)
  rw [ha, hb]
  have hnq0 : (0 : ℚ) ≤ (nsec : ℚ) := by exact_mod_cast hn0
  have hnq1 : (nsec : ℚ) ≤ 3600000000000 := by exact_mod_cast hn1.le
  have hhq0 : (0 : ℚ) ≤ (hour : ℚ) := by exact_mod_cast hh0
  have hkq0 : (0 : ℚ) ≤ (k : ℚ) := by exact_mod_cast hk0
  have hx10 : (0 : ℚ) ≤ (nsec : ℚ) / 3600000000000 := by positivity
  have hx11 : (nsec : ℚ) / 3600000000000 ≤ 1 := by
    rw [div_le_one (by norm_num)]
    exact hnq1
  have hc0 : 0 ≤ env.f64 ((nsec : ℚ) / 3600000000000) := by
    have := hmono 0 _ hx10
    rwa [f0] at this
  have hc1 : env.f64 ((nsec : ℚ) / 3600000000000) ≤ 1 := by
    have := hmono _ 1 hx11
    rwa [f1] at this
  have hcu : env.f64 ((nsec : ℚ) / 3600000000000)
      ≤ (nsec : ℚ) / 3600000000000 * (1 + 1 / 2 ^ 53) := by
    by_cases hz : nsec = 0
    · subst hz
      simp [f0]
    · have hn1' : (1 : ℚ) ≤ (nsec : ℚ) := by
        have : (1 : Int) ≤ nsec := by omega
        exact_mod_cast this
      apply hup
      · rw [div_le_div_iff₀ (by norm_num) (by norm_num)]
        calc (1 : ℚ) * 3600000000000 ≤ 1 * 2 ^ 64 := by norm_num
          _ ≤ (nsec : ℚ) * 2 ^ 64 := by
            apply mul_le_mul_of_nonneg_right hn1' (by norm_num)
      · calc (nsec : ℚ) / 3600000000000 ≤ 1 := hx11
          _ ≤ 2 ^ 64 := by norm_num
  generalize env.f64 ((nsec : ℚ) / 3600000000000) = c at *
  have hHlow : ((24 * k : Int) : ℚ) ≤ env.f64 ((hour : ℚ) + c) := by
    rw [← h24k]
    apply hmono
    have : ((24 * k : Int) : ℚ) ≤ (hour : ℚ) := by exact_mod_cast hhk
    linarith
  have hDlow : (k : ℚ) ≤ env.f64 (env.f64 ((hour : ℚ) + c) / 24) := by
    rw [← hkq]
    apply hmono
    rw [le_div_iff₀ (by norm_num)]
    have : ((24 * k : Int) : ℚ) = (k : ℚ) * 24 := by push_cast; ring
    rw [← this]
    exact hHlow
  have hDup : env.f64 (env.f64 ((hour : ℚ) + c) / 24) < (k : ℚ) + 1 := by
    by_cases hz : hour = 0
    · subst hz
      have hk00 : k = 0 := by omega
      subst hk00
      have hs1 : env.f64 (((0 : Int) : ℚ) + c) ≤ 1 := by
        have := hmono (((0 : Int) : ℚ) + c) 1 (by simpa using hc1)
        rwa [f1] at this
      have h2 : env.f64 (env.f64 (((0 : Int) : ℚ) + c) / 24) ≤ env.f64 (1 / 24) := by
        apply hmono
        apply div_le_div_of_nonneg_right hs1 (by norm_num)
      have h3 : env.f64 (1 / 24) ≤ 1 / 24 * (1 + 1 / 2 ^ 53) :=
        hup (1 / 24) (by norm_num) (by norm_num)
      have h4 : (1 : ℚ) / 24 * (1 + 1 / 2 ^ 53) < ((0 : Int) : ℚ) + 1 := by norm_num
      linarith
    · have hh1 : (1 : ℚ) ≤ (hour : ℚ) := by
        have : (1 : Int) ≤ hour := by omega
        exact_mod_cast this
      have hhmax : (hour : ℚ) ≤ 9007199254740992 := by
        have : hour ≤ 9007199254740992 := by omega
        exact_mod_cast this
      have hs1 : (1 : ℚ) ≤ (hour : ℚ) + c := by linarith
      have hsu : env.f64 ((hour : ℚ) + c) ≤ ((hour : ℚ) + c) * (1 + 1 / 2 ^ 53) := by
        apply hup
        · linarith [show (1 : ℚ) / 2 ^ 64 ≤ 1 by norm_num]
        · have : (9007199254740992 : ℚ) + 1 ≤ 2 ^ 64 := by norm_num
          linarith
      have hH1 : (1 : ℚ) ≤ env.f64 ((hour : ℚ) + c) := by
        have := hmono 1 _ hs1
        rwa [f1] at this
      have hHmax : env.f64 ((hour : ℚ) + c) ≤ 2 ^ 60 := by
        have h1 : ((hour : ℚ) + c) * (1 + 1 / 2 ^ 53) ≤ (9007199254740992 + 1) * (1 + 1 / 2 ^ 53) := by
          apply mul_le_mul_of_nonneg_right (by linarith) (by norm_num)
        have h2 : ((9007199254740992 : ℚ) + 1) * (1 + 1 / 2 ^ 53) ≤ 2 ^ 60 := by norm_num
        linarith
      have hDu : env.f64 (env.f64 ((hour : ℚ) + c) / 24)
          ≤ env.f64 ((hour : ℚ) + c) / 24 * (1 + 1 / 2 ^ 53) := by
        apply hup
        · have : (1 : ℚ) / 2 ^ 64 ≤ 1 / 24 := by norm_num
          have h2 : (1 : ℚ) / 24 ≤ env.f64 ((hour : ℚ) + c) / 24 :=
            div_le_div_of_nonneg_right hH1 (by norm_num)
          linarith
        · have h2 : env.f64 ((hour : ℚ) + c) / 24 ≤ 2 ^ 60 / 24 :=
            div_le_div_of_nonneg_right hHmax (by norm_num)
          have : (2 : ℚ) ^ 60 / 24 ≤ 2 ^ 64 := by norm_num
          linarith
      have hdq : (d : ℚ) = 3600000000000 * (hour : ℚ) + (nsec : ℚ) := by exact_mod_cast hdec
      have hdq2 : (d : ℚ) = 86400000000000 * (k : ℚ) + (r : ℚ) := by exact_mod_cast hdec2
      have hrq : (r : ℚ) + 4000 ≤ 86400000000000 := by exact_mod_cast hm
      have hdmax : (d : ℚ) ≤ 9223372036854775808 := by exact_mod_cast hd
      have hd0q : (0 : ℚ) ≤ (d : ℚ) := by exact_mod_cast hd0
      have hs2 : (hour : ℚ) + c ≤ (d : ℚ) / 3600000000000 * (1 + 1 / 2 ^ 53) := by
        have e : (d : ℚ) / 3600000000000 = (hour : ℚ) + (nsec : ℚ) / 3600000000000 := by
          rw [hdq]
          field_simp
          ring
        rw [e]
        have : (hour : ℚ) ≤ (hour : ℚ) * (1 + 1 / 2 ^ 53) := by
          have : (0 : ℚ) ≤ (hour : ℚ) * (1 / 2 ^ 53) := by positivity
          linarith
        linarith
      apply f64_chain_bound ((d : ℚ) / 86400000000000) (k : ℚ) _
      · exact div_le_div_of_nonneg_right hdmax (by norm_num)
      · rw [hdq2]
        have : (86400000000000 * (k : ℚ) + (r : ℚ)) / 86400000000000
            = (k : ℚ) + (r : ℚ) / 86400000000000 := by
          field_simp
          ring
        rw [this]
        have : (r : ℚ) / 86400000000000 ≤ (86400000000000 - 4000) / 86400000000000 :=
          div_le_div_of_nonneg_right (by linarith) (by norm_num)
        have e2 : ((86400000000000 : ℚ) - 4000) / 86400000000000
            = 1 - 4000 / 86400000000000 := by norm_num
        linarith
      · have hH2 : env.f64 ((hour : ℚ) + c)
            ≤ (d : ℚ) / 3600000000000 * (1 + 1 / 2 ^ 53) * (1 + 1 / 2 ^ 53) := by
          have := mul_le_mul_of_nonneg_right hs2 (show (0 : ℚ) ≤ 1 + 1 / 2 ^ 53 by norm_num)
          linarith
        have hH3 : env.f64 ((hour : ℚ) + c) / 24
            ≤ (d : ℚ) / 86400000000000 * (1 + 1 / 2 ^ 53) * (1 + 1 / 2 ^ 53) := by
          have := div_le_div_of_nonneg_right hH2 (show (0 : ℚ) ≤ 24 by norm_num)
          have e : (d : ℚ) / 3600000000000 * (1 + 1 / 2 ^ 53) * (1 + 1 / 2 ^ 53) / 24
              = (d : ℚ) / 86400000000000 * (1 + 1 / 2 ^ 53) * (1 + 1 / 2 ^ 53) := by ring
          rw [e] at this
          exact this
        have := mul_le_mul_of_nonneg_right hH3 (show (0 : ℚ) ≤ 1 + 1 / 2 ^ 53 by norm_num)
        linarith
  generalize env.f64 (env.f64 ((hour : ℚ) + c) / 24) = D at *
  unfold truncToInt
  rw [if_pos (by linarith)]
  rw [Int.floor_eq_iff]
  exact ⟨hDlow, hDup⟩

theorem clamp_bounds (x : Int) :
    -9223372036854775808 ≤ (if x < -9223372036854775808 then -9223372036854775808
      else if 9223372036854775808 - 1 < x then 9223372036854775808 - 1 else x) ∧
    (if x < -9223372036854775808 then -9223372036854775808
      else if 9223372036854775808 - 1 < x then 9223372036854775808 - 1 else x)
      ≤ 9223372036854775807 := by
  split_ifs <;> omega

theorem Sub_bounds (t u : Time) :
    -9223372036854775808 ≤ Time.Sub t u ∧ Time.Sub t u ≤ 9223372036854775807 := by
  have p63 : (2 : Int) ^ 63 = 9223372036854775808 := by norm_num
  have := clamp_bounds (t - u)
  unfold Time.Sub
  rw [p63]
  exact this

theorem daysLeft_eq_tdiv (env : Env) (h : env.roundsLikeFloat64) (expiry now : Time)
    (hm : |Time.Sub expiry now| % 86400000000000 + 4000 ≤ 86400000000000) :
    daysLeft env expiry now = Int.tdiv (Time.Sub expiry now) 86400000000000 := by
  obtain ⟨hlo, hhi⟩ := Sub_bounds expiry now
  unfold daysLeft
  generalize Time.Sub expiry now = d at *
  rcases le_or_lt 0 d with hd | hd
  · rw [abs_of_nonneg hd] at hm
    rw [daysLeft_of_nonneg env h d hd (by omega) hm, Int.tdiv_eq_ediv hd (by norm_num)]
  · rw [abs_of_neg hd] at hm
    have hneg := daysLeft_of_nonneg env h (-d) (by omega) (by omega) hm
    rw [Hours_neg env h, neg_div, h.2.1, truncToInt_neg] at hneg
    have e : Int.tdiv d 86400000000000 = -((-d) / 86400000000000) := by
      rw [← Int.tdiv_eq_ediv (by omega) (by norm_num), Int.neg_tdiv, neg_neg]
    rw [e, ← hneg, neg_neg]

theorem calmEnv_roundsLikeFloat64 : calmEnv.roundsLikeFloat64 :=
  ⟨fun _ _ h => h, fun _ => rfl, fun _ _ _ => rfl, fun x h _ => by
    show x ≤ x * (1 + 1 / 2 ^ 53)
    have h0 : (0 : ℚ) ≤ x := le_trans (by norm_num) h
    have : (0 : ℚ) ≤ x * (1 / 2 ^ 53) := by positivity
    linarith⟩

/-- C10, counterexample: the premium of `alice` expired 36 hours before the
clock reading.  The floor of (expiry - now) / 24 h is -2, and the profile card
`handleProfile` sends shows -1 days. -/
theorem expired_premium_shows_truncated_days :
    ⌊(((62999870400000000000 - 63000000000000000000 : Int) : ℚ) / 86400000000000)⌋ = -2 ∧
    (handleProfile calmEnv 7 70 true aliceExpired).events =
      [.GetUser 7, .Now,
       .Send (.MessageConfig 70
         "Имя: Alice\nЗнак зодиака: неизвестно\nДата рождения: неизвестно\nВремя рождения: неизвестно\nПремиум: Истекает через -1 дней"
         (some profileKeyboard))] := by
  constructor
  · rw [Int.floor_eq_iff]
    norm_num
  · have hd : daysLeft calmEnv 62999870400000000000 63000000000000000000 = -1 := by
      rw [daysLeft_eq_tdiv calmEnv calmEnv_roundsLikeFloat64 _ _ (by decide)]
      decide
    have hev : (handleProfile calmEnv 7 70 true aliceExpired).events =
        [.GetUser 7, .Now,
         .Send (.MessageConfig 70
           (profileText
             { ID := 7, FirstName := "Alice", UserName := "alice", IsPremium := true,
               PremiumExpiry := 62999870400000000000 }
             (premiumStatus calmEnv 62999870400000000000 63000000000000000000))
           (some profileKeyboard))] := by
      rfl
    rw [hev]
    unfold premiumStatus
    rw [hd]
    decide

/-- C10, amended: the one `bot.Send` with which `handleProfile` renders a
stored profile carries the profile text whose last line, the premium line, is
"Нет" ("No") when the premium flag is unset and the "expires in N days" text of
some clock reading when it is set.  There N is (expiry - now) / 24 h with the
fraction discarded, that is rounded toward zero and not down, so it is
negative only once the expiry lies a full day in the past; this holds for
every expiry, past ones included, whenever |expiry - now| does not fall within
the last 4 microseconds before a whole number of days, where the `float64`
division may round up to that whole number.  The difference is the
saturating `Duration` of `Time.Sub`. -/
theorem premium_line_rounds_toward_zero (env : Env) (hfl : env.roundsLikeFloat64) :
    (∀ (userID chatID : Int) (sendNew : Bool) (w : World) (u : User),
      env.readErr w.events.length = none → w.users userID = some u →
      ∃ pre n, (handleProfile env userID chatID sendNew w).events =
        w.events ++ pre ++ [.Send
          (if sendNew || (userMsg w userID).profileMessageID == 0 then
            .MessageConfig chatID
              (profileText u
                (if u.IsPremium then premiumStatus env u.PremiumExpiry (env.clock n) else "Нет"))
              (some profileKeyboard)
          else
            .EditMessageTextConfig chatID (userMsg w userID).profileMessageID
              (profileText u
                (if u.IsPremium then premiumStatus env u.PremiumExpiry (env.clock n) else "Нет"))
              (some profileKeyboard))] ∧
        sends pre = []) ∧
    (∀ (u : User) (status : String),
      ∃ head : String, profileText u status = head ++ "\nПремиум: " ++ status) ∧
    (∀ expiry now : Time,
      |Time.Sub expiry now| % 86400000000000 + 4000 ≤ 86400000000000 →
      premiumStatus env expiry now = "Истекает через " ++
        Sprintf_d (Int.tdiv (Time.Sub expiry now) 86400000000000) ++ " дней") ∧
    (∀ expiry now : Time, -9223372036854775808 ≤ expiry - now →
      expiry - now ≤ 9223372036854775807 → Time.Sub expiry now = expiry - now) := by
  refine ⟨?_, ?_, ?_, ?_⟩
  · intro userID chatID sendNew w u hread hu
    obtain ⟨pre, n, he, hs, _⟩ := handleProfile_renders env userID chatID sendNew w u hread hu
    exact ⟨pre, n, he, hs⟩
  · intro u status
    exact ⟨_, rfl⟩
  · intro expiry now hm
    unfold premiumStatus
    rw [daysLeft_eq_tdiv env hfl expiry now hm]
  · intro expiry now h1 h2
    have p63 : (2 : Int) ^ 63 = 9223372036854775808 := by norm_num
    unfold Time.Sub
    rw [p63]
    have h3 : ¬ (expiry - now < -9223372036854775808) := not_lt.mpr h1
    have h4 : ¬ (9223372036854775808 - 1 < expiry - now) := by
      intro h
      have e : (9223372036854775808 - 1 : Int) = 9223372036854775807 := by norm_num
      rw [e] at h
      exact absurd h2 (not_le.mpr h)
    rw [if_neg h3, if_neg h4]

/-- C10, witness: a premium that expires 30 days and 12 hours after the clock
reading shows 30 days; one that expired an hour before it shows 0 days. -/
theorem premium_line_rounds_toward_zero_witness :
    calmEnv.roundsLikeFloat64 ∧
    premiumStatus calmEnv 63002635200000000000 63000000000000000000
      = "Истекает через 30 дней" ∧
    premiumStatus calmEnv 62999996400000000000 63000000000000000000
      = "Истекает через 0 дней" :=
  ⟨calmEnv_roundsLikeFloat64,
    (premium_line_rounds_toward_zero calmEnv calmEnv_roundsLikeFloat64).2.2.1
      63002635200000000000 63000000000000000000 (by decide),
    (premium_line_rounds_toward_zero calmEnv calmEnv_roundsLikeFloat64).2.2.1
      62999996400000000000 63000000000000000000 (by decide)⟩

/-! ## The edit flows, from the button to the re-rendered card -/

theorem pressEdit_effect (env : Env) (b : EditButton) (id : String) (sender : TgUser)
    (msg : Message) (w : World) :
    (handleCallbackQuery env (pressEdit b id sender msg) w).users = w.users ∧
    GetState (handleCallbackQuery env (pressEdit b id sender msg) w) sender.ID = b.state ∧
    (userMsg (handleCallbackQuery env (pressEdit b id sender msg) w) sender.ID).promptMessageID
      = msg.MessageID ∧
    (userMsg (handleCallbackQuery env (pressEdit b id sender msg) w) sender.ID).profileMessageID
      = (userMsg w sender.ID).profileMessageID ∧
    (handleCallbackQuery env (pressEdit b id sender msg) w).events = w.events ++
      [.Send (.EditMessageTextConfig msg.ChatID msg.MessageID b.promptText (some b.keyboard)),
       .Request (.CallbackConfig id "")] := by
  cases b <;>
  · unfold handleCallbackQuery pressEdit
    simp only [EditButton.data, EditButton.state, EditButton.promptText, EditButton.keyboard,
      String.reduceEq, if_true, if_false, botSend, acknowledge, botRequest]
    refine ⟨?_, ?_, ?_, ?_, ?_⟩
    · simp only [logOnErr_users, World.emit, setPromptMessageID, SetState, trackUser_users]
    · unfold GetState
      simp only [logOnErr_userStates, World.emit, setPromptMessageID, SetState,
        Function.update_same]
    · unfold userMsg
      simp only [logOnErr_userMessageIDs, World.emit, setPromptMessageID,
        Function.update_same, Option.getD_some]
    · have h := userMsg_trackUser sender.ID w
      simp only [userMsg] at h
      simp only [userMsg, logOnErr_userMessageIDs, World.emit, setPromptMessageID, SetState,
        Function.update_same, Option.getD_some, h]
    · simp only [logOnErr_events, World.emit, setPromptMessageID, SetState, trackUser_events,
        List.append_assoc, List.singleton_append]

theorem handleProfile_cardRequest (env : Env) (userID chatID : Int) (w : World) (u : User)
    (hread : env.readErr w.events.length = none) (hu : w.users userID = some u) :
    ∃ pre status, (handleProfile env userID chatID false w).events = w.events ++ pre ++
        [.Send (cardRequest chatID (userMsg w userID).profileMessageID u status)] ∧
      sends pre = [] := by
  obtain ⟨pre, n, he, hs, _⟩ := handleProfile_renders env userID chatID false w u hread hu
  refine ⟨pre,
    (if u.IsPremium then premiumStatus env u.PremiumExpiry (env.clock n) else "Нет"), ?_, hs⟩
  rw [he]
  simp only [Bool.false_or, cardRequest]

theorem cancel_renders (env : Env) (id : String) (sender : TgUser) (msg : Message) (w : World)
    (u : User) (hdb : env.storageOk) (hu : w.users sender.ID = some u) :
    ∃ pre status, (handleCallbackQuery env
        { ID := id, From := sender, Message := msg, Data := "cancel" } w).events = w.events ++ pre ++
        [.Send (cardRequest msg.ChatID (userMsg w sender.ID).profileMessageID u status),
         .Request (.CallbackConfig id "")] ∧
      sends pre = [] := by
  unfold handleCallbackQuery
  simp only [String.reduceEq, if_false, if_true, acknowledge, botRequest]
  obtain ⟨pre, status, he, hs⟩ := handleProfile_cardRequest env sender.ID msg.ChatID
    (ClearState sender.ID (trackUser sender.ID w)) u (hdb _).1
    (by simp only [ClearState, trackUser_users]; exact hu)
  refine ⟨pre, status, ?_, hs⟩
  rw [logOnErr_events, emit_events, he]
  have hm : userMsg (ClearState sender.ID (trackUser sender.ID w)) sender.ID
      = userMsg w sender.ID := userMsg_trackUser sender.ID w
  rw [hm]
  simp only [ClearState, trackUser_events, List.append_assoc, List.singleton_append]

theorem text_renders (env : Env) (m : Message) (w : World) (u : User) (f : Field)
    (hstate : GetState w m.From.ID = f.state) (hvalid : f.valid m.Text = true)
    (hreg : w.users m.From.ID = some u) (hid : u.ID = m.From.ID) (hdb : env.storageOk) :
    ∃ pre status, (handleMessage env m w).events = w.events ++ pre ++
        [.Send (cardRequest m.ChatID (userMsg w m.From.ID).profileMessageID
          (f.set u m.Text) status)] ∧
      sends pre = [] := by
  have hg := GetUser_ok env m.From.ID (trackUser m.From.ID w) u (hdb _).1
    (by rw [trackUser_users]; exact hreg)
  have tail : ∀ (u' : User) (line : String), u'.ID = m.From.ID →
      ∃ pre status, (handleProfile env m.From.ID m.ChatID false
        (ClearState m.From.ID
          (logOnErr (env.api (({ (trackUser m.From.ID w).emit (.GetUser m.From.ID) with
                users := Function.update ((trackUser m.From.ID w).emit (.GetUser m.From.ID)).users
                  u'.ID (some u') } : World).emit (.SaveUser u')).events.length) line
            (({ ((trackUser m.From.ID w).emit (.GetUser m.From.ID)).emit (.SaveUser u') with
                users := Function.update ((trackUser m.From.ID w).emit (.GetUser m.From.ID)).users
                  u'.ID (some u') } : World).emit
              (.Request (.DeleteMessageConfig m.ChatID m.MessageID)))))).events
        = w.events ++ pre ++
          [.Send (cardRequest m.ChatID (userMsg w m.From.ID).profileMessageID u' status)] ∧
        sends pre = [] := by
    intro u' line hid'
    generalize hB : ClearState m.From.ID _ = B
    have hBu : B.users m.From.ID = some u' := by
      rw [← hB]
      simp only [ClearState, logOnErr_users, World.emit, hid', Function.update_same]
    have hBe : B.events = w.events ++ [.GetUser m.From.ID, .SaveUser u',
        .Request (.DeleteMessageConfig m.ChatID m.MessageID)] := by
      rw [← hB]
      simp only [ClearState, logOnErr_events, World.emit, trackUser_events, List.append_assoc,
        List.singleton_append, List.cons_append, List.nil_append]
    have hBm : userMsg B m.From.ID = userMsg w m.From.ID := by
      rw [← hB]
      have h := userMsg_trackUser m.From.ID w
      simp only [userMsg] at h
      simp only [userMsg, ClearState, logOnErr_userMessageIDs, World.emit, h]
    obtain ⟨pre, status, he, hs⟩ := handleProfile_cardRequest env m.From.ID m.ChatID B u'
      (hdb _).1 hBu
    refine ⟨[.GetUser m.From.ID, .SaveUser u',
      .Request (.DeleteMessageConfig m.ChatID m.MessageID)] ++ pre, status, ?_, ?_⟩
    · rw [he, hBe, hBm]
      simp only [List.append_assoc]
    · simp [sends_append, sends, hs]
  unfold handleMessage
  cases f with
  | Name =>
    simp only [hstate, Field.state, hg]
    rw [SaveUser_ok env _ _ (hdb _).2]
    simp only [botRequest]
    exact tail _ _ hid
  | BirthDate =>
    simp only [Field.valid] at hvalid
    simp only [hstate, Field.state, hg, hvalid, Bool.not_true, Bool.false_eq_true, if_false]
    rw [SaveUser_ok env _ _ (hdb _).2]
    simp only [botRequest]
    exact tail _ _ hid
  | BirthTime =>
    simp only [Field.valid] at hvalid
    simp only [hstate, Field.state, hg, hvalid, Bool.not_true, Bool.false_eq_true, if_false]
    rw [SaveUser_ok env _ _ (hdb _).2]
    simp only [botRequest]
    exact tail _ _ hid

theorem zodiac_renders (env : Env) (q : CallbackQuery) (label : String) (w : World) (u : User)
    (hpre : HasPrefix q.Data "zodiac_" = true)
    (hmap : zodiacMap (TrimPrefix q.Data "zodiac_") = some label)
    (hreg : w.users q.From.ID = some u) (hid : u.ID = q.From.ID) (hdb : env.storageOk) :
    ∃ pre status, (handleCallbackQuery env q w).events = w.events ++ pre ++
        [.Send (cardRequest q.Message.ChatID (userMsg w q.From.ID).profileMessageID
          { u with ZodiacSign := label } status),
         .Request (.CallbackConfig q.ID "")] ∧
      sends pre = [] := by
  have n1 : q.Data ≠ "edit_name" := by
    intro h; rw [h] at hpre; exact absurd hpre (by decide)
  have n2 : q.Data ≠ "edit_zodiac" := by
    intro h; rw [h] at hpre; exact absurd hpre (by decide)
  have n3 : q.Data ≠ "edit_birthdate" := by
    intro h; rw [h] at hpre; exact absurd hpre (by decide)
  have n4 : q.Data ≠ "edit_birthtime" := by
    intro h; rw [h] at hpre; exact absurd hpre (by decide)
  have n5 : q.Data ≠ "buy_premium" := by
    intro h; rw [h] at hpre; exact absurd hpre (by decide)
  have n6 : q.Data ≠ "cancel" := by
    intro h; rw [h] at hpre; exact absurd hpre (by decide)
  have hg := GetUser_ok env q.From.ID (trackUser q.From.ID w) u (hdb _).1
    (by rw [trackUser_users]; exact hreg)
  unfold handleCallbackQuery
  simp only [n1, n2, n3, n4, n5, n6, if_false, hpre, if_true, hmap, hg]
  rw [SaveUser_ok env _ _ (hdb _).2]
  simp only [acknowledge, botRequest]
  generalize hB : ClearState q.From.ID _ = B
  have hBu : B.users q.From.ID = some { u with ZodiacSign := label } := by
    rw [← hB]
    simp only [ClearState, World.emit, hid, Function.update_same]
  have hBe : B.events = w.events ++
      [.GetUser q.From.ID, .SaveUser { u with ZodiacSign := label }] := by
    rw [← hB]
    simp only [ClearState, World.emit, trackUser_events, List.append_assoc,
      List.singleton_append, List.cons_append, List.nil_append]
  have hBm : userMsg B q.From.ID = userMsg w q.From.ID := by
    rw [← hB]
    have h := userMsg_trackUser q.From.ID w
    simp only [userMsg] at h
    simp only [userMsg, ClearState, World.emit, h]
  obtain ⟨pre, status, he, hs⟩ := handleProfile_cardRequest env q.From.ID q.Message.ChatID B
    { u with ZodiacSign := label } (hdb _).1 hBu
  refine ⟨[.GetUser q.From.ID, .SaveUser { u with ZodiacSign := label }] ++ pre, status, ?_, ?_⟩
  · rw [logOnErr_events, emit_events, he, hBe, hBm]
    simp only [List.append_assoc, List.singleton_append, List.cons_append, List.nil_append]
  · simp [sends_append, sends, hs]

theorem zodiac_unknown_events (env : Env) (q : CallbackQuery) (w : World)
    (hpre : HasPrefix q.Data "zodiac_" = true)
    (hmap : zodiacMap (TrimPrefix q.Data "zodiac_") = none) :
    (handleCallbackQuery env q w).events = w.events := by
  have n1 : q.Data ≠ "edit_name" := by
    intro h; rw [h] at hpre; exact absurd hpre (by decide)
  have n2 : q.Data ≠ "edit_zodiac" := by
    intro h; rw [h] at hpre; exact absurd hpre (by decide)
  have n3 : q.Data ≠ "edit_birthdate" := by
    intro h; rw [h] at hpre; exact absurd hpre (by decide)
  have n4 : q.Data ≠ "edit_birthtime" := by
    intro h; rw [h] at hpre; exact absurd hpre (by decide)
  have n5 : q.Data ≠ "buy_premium" := by
    intro h; rw [h] at hpre; exact absurd hpre (by decide)
  have n6 : q.Data ≠ "cancel" := by
    intro h; rw [h] at hpre; exact absurd hpre (by decide)
  unfold handleCallbackQuery
  simp only [n1, n2, n3, n4, n5, n6, if_false, hpre, if_true, hmap, logPrintf, trackUser_events]

theorem Field.button_state (f : Field) : f.button.state = f.state := by
  cases f <;> rfl

/-- C11, counterexample: `alice` is registered and the UI message tracker holds no
profile card for this user (as after a restart).  The edit-name button is
pressed on message 333, which becomes the tracked prompt, and cancel is pressed
on the same message: the profile card goes out as a new message and message
333 keeps the instruction text.  When the tracker holds card 222 instead, the
same two presses edit message 222, not message 333.  A selection with the
unknown code `xx` after the zodiac button renders nothing at all. -/
theorem edit_flow_does_not_edit_the_prompt_message :
    (handleCallbackQuery calmEnv (pressEdit .Name "q1" aliceSender (aliceCard 333))
        (aliceIn .StateIdle)).userMessageIDs 7
      = some { promptMessageID := 333, profileMessageID := 0, invoiceMessageID := 0 } ∧
    (handleCallbackQuery calmEnv
        { ID := "q2", From := aliceSender, Message := aliceCard 333, Data := "cancel" }
        (handleCallbackQuery calmEnv (pressEdit .Name "q1" aliceSender (aliceCard 333))
          (aliceIn .StateIdle))).events
      = [.Send (.EditMessageTextConfig 70 333 "Пожалуйста, введите Ваше имя:" (some cancelKeyboard)),
         .Request (.CallbackConfig "q1" ""),
         .GetUser 7,
         .Send (.MessageConfig 70 (profileText alice "Нет") (some profileKeyboard)),
         .Request (.CallbackConfig "q2" "")] ∧
    (handleCallbackQuery calmEnv
        { ID := "q2", From := aliceSender, Message := aliceCard 333, Data := "cancel" }
        (handleCallbackQuery calmEnv (pressEdit .Name "q1" aliceSender (aliceCard 333))
          (aliceWithCard 222))).events
      = [.Send (.EditMessageTextConfig 70 333 "Пожалуйста, введите Ваше имя:" (some cancelKeyboard)),
         .Request (.CallbackConfig "q1" ""),
         .GetUser 7,
         .Request (.EditMessageReplyMarkupConfig 70 222 []),
         .Send (.EditMessageTextConfig 70 222 (profileText alice "Нет") (some profileKeyboard)),
         .Request (.CallbackConfig "q2" "")] ∧
    (handleCallbackQuery calmEnv
        { ID := "q2", From := aliceSender, Message := aliceCard 333, Data := "zodiac_xx" }
        (handleCallbackQuery calmEnv (pressEdit .Zodiac "q1" aliceSender (aliceCard 333))
          (aliceWithCard 333))).events
      = [.Send (.EditMessageTextConfig 70 333 "Пожалуйста, выберите Ваш знак зодиака:"
           (some zodiacKeyboard)),
         .Request (.CallbackConfig "q1" "")] := by
  refine ⟨?_, ?_, ?_, ?_⟩ <;> decide

/-- C11, amended: a registered user whose profile store answers presses an edit
button on message `msg`; `w1` is the world after the press.  The press records
`msg` as the tracked prompt and leaves the tracked profile card as it was.
Finishing the flow from `w1` by cancel, by valid text for the field of the
button, or by a zodiac selection with a known code renders the profile card
with exactly one send, the request `cardRequest` for the tracked profile card:
an edit in place of that card when one is tracked, a new message when none is;
the card edited is `msg` exactly when the button was pressed on the tracked
card.  A zodiac selection with an unknown code emits nothing. -/
theorem edit_flow_rerenders_tracked_card (env : Env) (b : EditButton) (id : String)
    (sender : TgUser) (msg : Message) (w w1 : World) (u : User)
    (hdb : env.storageOk) (hreg : w.users sender.ID = some u) (hid : u.ID = sender.ID)
    (hpress : handleCallbackQuery env (pressEdit b id sender msg) w = w1) :
    (userMsg w1 sender.ID).promptMessageID = msg.MessageID ∧
    (userMsg w1 sender.ID).profileMessageID = (userMsg w sender.ID).profileMessageID ∧
    (∀ id2 : String, ∃ pre status,
      (handleCallbackQuery env { ID := id2, From := sender, Message := msg, Data := "cancel" } w1).events
        = w1.events ++ pre ++
          [.Send (cardRequest msg.ChatID (userMsg w sender.ID).profileMessageID u status),
           .Request (.CallbackConfig id2 "")] ∧
      sends pre = []) ∧
    (∀ (f : Field) (m : Message), b = f.button → m.From = sender → f.valid m.Text = true →
      ∃ pre status, (handleMessage env m w1).events = w1.events ++ pre ++
          [.Send (cardRequest m.ChatID (userMsg w sender.ID).profileMessageID
            (f.set u m.Text) status)] ∧
        sends pre = []) ∧
    (∀ (id2 data label : String), HasPrefix data "zodiac_" = true →
      zodiacMap (TrimPrefix data "zodiac_") = some label →
      ∃ pre status,
        (handleCallbackQuery env { ID := id2, From := sender, Message := msg, Data := data } w1).events
          = w1.events ++ pre ++
            [.Send (cardRequest msg.ChatID (userMsg w sender.ID).profileMessageID
              { u with ZodiacSign := label } status),
             .Request (.CallbackConfig id2 "")] ∧
        sends pre = []) ∧
    (∀ (id2 data : String), HasPrefix data "zodiac_" = true →
      zodiacMap (TrimPrefix data "zodiac_") = none →
      (handleCallbackQuery env { ID := id2, From := sender, Message := msg, Data := data } w1).events
        = w1.events) ∧
    (∀ (chatID : Int) (user : User) (status : String),
      (userMsg w sender.ID).profileMessageID = msg.MessageID → msg.MessageID ≠ 0 →
      cardRequest chatID (userMsg w sender.ID).profileMessageID user status
        = .EditMessageTextConfig chatID msg.MessageID (profileText user status)
            (some profileKeyboard)) ∧
    (∀ (chatID : Int) (user : User) (status : String),
      (userMsg w sender.ID).profileMessageID = 0 →
      cardRequest chatID (userMsg w sender.ID).profileMessageID user status
        = .MessageConfig chatID (profileText user status) (some profileKeyboard)) := by
  obtain ⟨hu1, hs1, hp1, hc1, _⟩ := pressEdit_effect env b id sender msg w
  rw [hpress] at hu1 hs1 hp1 hc1
  have hreg1 : w1.users sender.ID = some u := by rw [hu1]; exact hreg
  refine ⟨hp1, hc1, ?_, ?_, ?_, ?_, ?_, ?_⟩
  · intro id2
    have h := cancel_renders env id2 sender msg w1 u hdb hreg1
    rw [hc1] at h
    exact h
  · intro f m hb hfrom hvalid
    subst hfrom
    have hst : GetState w1 m.From.ID = f.state := by
      rw [hs1, hb, Field.button_state]
    have h := text_renders env m w1 u f hst hvalid hreg1 hid hdb
    rw [hc1] at h
    exact h
  · intro id2 data label hpre hmap
    have h := zodiac_renders env { ID := id2, From := sender, Message := msg, Data := data }
      label w1 u hpre hmap hreg1 hid hdb
    rw [hc1] at h
    exact h
  · intro id2 data hpre hmap
    exact zodiac_unknown_events env { ID := id2, From := sender, Message := msg, Data := data }
      w1 hpre hmap
  · intro chatID user status heq hne
    rw [heq]
    unfold cardRequest
    have : (msg.MessageID == 0) = false := by simpa using hne
    rw [this]
    rfl
  · intro chatID user status heq
    rw [heq]
    rfl

/-- C11, witness: `alice`, whose tracked profile card is message 333, presses the
edit-name button on that card and then sends `Bob`: the press records 333 as the
tracked prompt, and the card with the new name is rendered by one send, an edit
of message 333 in place. -/
theorem edit_flow_rerenders_tracked_card_witness :
    calmEnv.storageOk ∧
    (aliceWithCard 333).users aliceSender.ID = some alice ∧
    alice.ID = aliceSender.ID ∧
    (userMsg (handleCallbackQuery calmEnv (pressEdit .Name "q1" aliceSender (aliceCard 333))
      (aliceWithCard 333)) 7).promptMessageID = 333 ∧
    ∃ pre status, (handleMessage calmEnv (aliceSays "Bob")
        (handleCallbackQuery calmEnv (pressEdit .Name "q1" aliceSender (aliceCard 333))
          (aliceWithCard 333))).events
      = (handleCallbackQuery calmEnv (pressEdit .Name "q1" aliceSender (aliceCard 333))
          (aliceWithCard 333)).events ++ pre ++
        [.Send (.EditMessageTextConfig 70 333 (profileText (Field.Name.set alice "Bob") status)
          (some profileKeyboard))] ∧
      sends pre = [] :=
  ⟨fun _ => ⟨rfl, rfl⟩, rfl, rfl,
    (edit_flow_rerenders_tracked_card calmEnv .Name "q1" aliceSender (aliceCard 333)
      (aliceWithCard 333) _ alice (fun _ => ⟨rfl, rfl⟩) rfl rfl rfl).1,
    (edit_flow_rerenders_tracked_card calmEnv .Name "q1" aliceSender (aliceCard 333)
      (aliceWithCard 333) _ alice (fun _ => ⟨rfl, rfl⟩) rfl rfl rfl).2.2.2.1
      .Name (aliceSays "Bob") rfl rfl (by decide)⟩

end TgBot
